import Mathlib

/-!
# Verification of the demux-sapio-watcher discovery-and-correlation pipeline

A shallow embedding of the core logic of the repository:

* `demux_sapio_watcher/bclconvert/models.py` — the row types
  (`FastqListEntry`, `DemuxStats`, `QualityMetrics`), the joined record
  `CombinedSampleData` with its model validators, and `BCLConvertFolder`
  with its report-file locator `from_path`.
* `demux_sapio_watcher/bclconvert/parse_folder.py` — `parse_bclconvert_folder`,
  the three-pass correlation of report rows into combined records.
* `demux_sapio_watcher/bclconvert/find_folders.py` — `matches`,
  `filter_folders` and `find_bclconvert_folders` (glob-filtered recursive
  folder scan with completion-marker check).
* `demux_sapio_watcher/sapio_types.py` — `SequencingFile.from_bclconvert`
  and the `dataReadPasses` computed field.

Python machine-level conventions used by the embedding:

* Python `int` is unbounded, embedded as `Int`; Python `float` division of
  integer quantities is embedded exactly over `Rat` (the spec states the
  derived percentages only up to floating-point tolerance).
* Filesystem paths are lists of segments (`FsPath`); `Path.resolve` with no
  symlinks is lexical normalization of `"."`/`".."` segments.
* Exceptions (`KeyError`, `ZeroDivisionError`, pydantic `ValidationError`)
  are embedded as `Except String` results.
* A CSV row is embedded after the `dict(zip(header, fields))` step as the
  value of its `"SampleID"` column (if that column exists) together with the
  result of decoding it into the target row type (`none` models a pydantic
  `ValidationError`, which for `FastqListEntry` includes the on-disk
  existence checks of the referenced fastq files).  Rows of the several
  located files of one report category are given as one concatenated list,
  matching the file-then-line iteration order of the source.
-/

set_option maxHeartbeats 1000000

/-- A filesystem path, as the list of its segments (absolute paths are
rooted at the filesystem root). -/
abbrev FsPath := List String

/-- Lexical normalization of `"."` and `".."` segments, embedding
`Path.resolve` in a symlink-free filesystem (`".."` at the root stays at the
root, as in POSIX resolution). -/
def normalizePath (p : FsPath) : FsPath :=
  p.foldl (fun acc s =>
    if s = "." then acc
    else if s = ".." then acc.dropLast
    else acc ++ [s]) []

/-- The string form of a relative path (`str` of a relative `PosixPath`). -/
def relStr (p : FsPath) : String := String.intercalate "/" p

/-- The string form of an absolute path (`str` of an absolute `PosixPath`). -/
def absStr (p : FsPath) : String := "/" ++ String.intercalate "/" p

/-- One row of `Quality_Metrics.csv` (`QualityMetrics` in
`bclconvert/models.py`). -/
structure QualityMetrics where
  lane : Int
  sample_id : String
  index : String
  index2 : String
  read_number : Int
  yield_ : Int
  yield_q30 : Int
  quality_score_sum : Int
  mean_quality_score_pf : Rat
  percent_q30 : Rat
deriving DecidableEq, Repr

/-- One row of `Demultiplex_Stats.csv` (`DemuxStats` in
`bclconvert/models.py`). -/
structure DemuxStats where
  lane : Int
  sample_id : String
  index : String
  num_reads : Int
  num_perfect_index_reads : Int
  num_one_mismatch_index_reads : Int
  num_two_mismatch_index_reads : Int
  percent_reads : Rat
  percent_perfect_index_reads : Rat
  percent_one_mismatch_index_reads : Rat
  percent_two_mismatch_index_reads : Rat
deriving DecidableEq, Repr

/-- One successfully validated row of `fastq_list.csv` (`FastqListEntry` in
`bclconvert/models.py`).  The model validator resolves the read paths
against the source file's directory and checks that they differ and exist
on disk; a row failing those checks is a `ValidationError` and is embedded
as an absent (`none`) parse result, so entries of this type always denote
rows that passed validation. -/
structure FastqListEntry where
  file : FsPath
  read_group : String
  sample_id : String
  library : String
  lane : Int
  read1_file : FsPath
  read2_file : Option FsPath
deriving DecidableEq, Repr

/-- The joined per-sample record (`CombinedSampleData` in
`bclconvert/models.py`). -/
structure CombinedSampleData where
  fastq : FastqListEntry
  demux_stats : DemuxStats
  quality_metrics_read1 : QualityMetrics
  quality_metrics_read2 : Option QualityMetrics
deriving DecidableEq, Repr

/-- Construction of `CombinedSampleData`, embedding its pydantic model
validators `check_consistency`, `num_fastq_files_consistency` and
`validate_read_number`; any failing check raises `ValidationError`,
embedded as `.error`. -/
def checkCombined (fastq : FastqListEntry) (demux : DemuxStats)
    (qm1 : QualityMetrics) (qm2 : Option QualityMetrics) :
    Except String CombinedSampleData :=
  if fastq.sample_id ≠ demux.sample_id then
    .error "Sample ID mismatch between FastqListEntry and DemuxStats"
  else if fastq.sample_id ≠ qm1.sample_id then
    .error "Sample ID mismatch between FastqListEntry and QualityMetrics (Read 1)"
  else
    match fastq.read2_file, qm2 with
    | some _, none =>
        .error "Read 2 file is present but QualityMetrics for Read 2 is missing"
    | none, some _ =>
        .error "QualityMetrics for Read 2 is present but Read 2 file is missing"
    | some _, some q2 =>
        if fastq.sample_id ≠ q2.sample_id then
          .error "Sample ID mismatch between FastqListEntry and QualityMetrics (Read 2)"
        else if qm1.read_number ≠ 1 then
          .error "Read number for quality_metrics_read1 must be 1"
        else if q2.read_number ≠ 2 then
          .error "Read number for quality_metrics_read2 must be 2"
        else .ok ⟨fastq, demux, qm1, some q2⟩
    | none, none =>
        if qm1.read_number ≠ 1 then
          .error "Read number for quality_metrics_read1 must be 1"
        else .ok ⟨fastq, demux, qm1, none⟩

/-- The partially accumulated per-sample `dict` value used by
`parse_bclconvert_folder` (`{"fastq": ..., "demux_stats": ..., ...}`). -/
structure SampleFragment where
  fastq : Option FastqListEntry := none
  demux_stats : Option DemuxStats := none
  quality_metrics_read1 : Option QualityMetrics := none
  quality_metrics_read2 : Option QualityMetrics := none
deriving DecidableEq, Repr

/-- `CombinedSampleData(**data)` applied to an accumulated fragment: a
missing required constituent is a pydantic `ValidationError`. -/
def SampleFragment.build (f : SampleFragment) : Except String CombinedSampleData :=
  match f.fastq, f.demux_stats, f.quality_metrics_read1 with
  | some fq, some dx, some q1 => checkCombined fq dx q1 f.quality_metrics_read2
  | _, _, _ => .error "Field required"

/-- The `combined_data` dict: an insertion-ordered association list from
sample id to fragment, mirroring Python dict semantics. -/
abbrev FragMap := List (String × SampleFragment)

/-- `key in dict`. -/
def hasKey : FragMap → String → Bool
  | [], _ => false
  | (k', _) :: t, k => if k' = k then true else hasKey t k

/-- `dict[k] = v`: replaces in place (keeping the key's original position)
or appends a new binding, as Python dict assignment does. -/
def setFragment : FragMap → String → SampleFragment → FragMap
  | [], k, v => [(k, v)]
  | (k', v') :: t, k, v =>
      if k' = k then (k, v) :: t else (k', v') :: setFragment t k v

/-- `dict[k][field] = v` for a key known to be present: updates the bound
fragment in place (no effect when the key is absent; call sites that can
reach an absent key model Python's `KeyError` separately). -/
def updateFragment : FragMap → String → (SampleFragment → SampleFragment) → FragMap
  | [], _, _ => []
  | (k', v') :: t, k, g =>
      if k' = k then (k', g v') :: t else (k', v') :: updateFragment t k g

/-- One data line of a located `fastq_list.csv`, after
`dict(zip(header, fields))`: the value of its `"SampleID"` column if the
file has one (the standard `fastq_list.csv` header has none — the sample id
lives in the `RGSM` column), and the result of decoding the dict into
`FastqListEntry` (`none` models a `ValidationError`). -/
structure FastqRow where
  sampleIDField : Option String
  parsed : Option FastqListEntry
deriving DecidableEq, Repr

/-- One data line of a located `Demultiplex_Stats.csv`; its header does
have a `SampleID` column, which is also the aliased source of the decoded
`sample_id` field. -/
structure DemuxRow where
  sampleIDField : Option String
  parsed : Option DemuxStats
deriving DecidableEq, Repr

/-- One data line of a located `Quality_Metrics.csv`; its header does have
a `SampleID` column, which is also the aliased source of the decoded
`sample_id` field. -/
structure QualityRow where
  sampleIDField : Option String
  parsed : Option QualityMetrics
deriving DecidableEq, Repr

/-- The body of the first loop of `parse_bclconvert_folder` for one
fastq-list row: skip when the `SampleID` column reads `"Undetermined"`,
skip (with a logged error) on `ValidationError`, otherwise assign a fresh
`{"fastq": entry}` dict under the entry's sample id. -/
def processFastqRow (m : FragMap) (r : FastqRow) : FragMap :=
  if r.sampleIDField = some "Undetermined" then m
  else
    match r.parsed with
    | none => m
    | some e => setFragment m e.sample_id { fastq := some e }

/-- The body of the second loop of `parse_bclconvert_folder` for one
demux-stats row: skip `"Undetermined"` / `ValidationError` rows, seed an
empty dict for an unseen sample id, then attach the entry under
`"demux_stats"`. -/
def processDemuxRow (m : FragMap) (r : DemuxRow) : FragMap :=
  if r.sampleIDField = some "Undetermined" then m
  else
    match r.parsed with
    | none => m
    | some e =>
        let m' := if hasKey m e.sample_id then m else m ++ [(e.sample_id, {})]
        updateFragment m' e.sample_id (fun f => { f with demux_stats := some e })

/-- The body of the third loop of `parse_bclconvert_folder` for one
quality-metrics row: skip `"Undetermined"` / `ValidationError` rows, then
index `combined_data[sample_id]` directly — a sample id absent from the
dict raises an uncaught `KeyError` (embedded as `.error`); rows with a read
number other than 1 or 2 fall through both branches and are dropped. -/
def processQualityRow (m : FragMap) (r : QualityRow) : Except String FragMap :=
  if r.sampleIDField = some "Undetermined" then .ok m
  else
    match r.parsed with
    | none => .ok m
    | some e =>
        if e.read_number = 1 then
          if hasKey m e.sample_id then
            .ok (updateFragment m e.sample_id
              (fun f => { f with quality_metrics_read1 := some e }))
          else .error ("KeyError: " ++ e.sample_id)
        else if e.read_number = 2 then
          if hasKey m e.sample_id then
            .ok (updateFragment m e.sample_id
              (fun f => { f with quality_metrics_read2 := some e }))
          else .error ("KeyError: " ++ e.sample_id)
        else .ok m

/-- The final loop of `parse_bclconvert_folder`: build a
`CombinedSampleData` from each accumulated fragment in dict order, logging
and skipping fragments that fail validation. -/
def buildCombined (m : FragMap) : List CombinedSampleData :=
  m.foldl (fun acc e =>
    match e.2.build with
    | .ok c => acc ++ [c]
    | .error _ => acc) []

/-- `parse_bclconvert_folder`, as the function from the data rows of the
three report categories to the fully consumed output of the generator: the
list of yielded records, or the first uncaught exception (`KeyError`) if
consumption aborts. -/
def parse_bclconvert_folder (fq : List FastqRow) (dx : List DemuxRow)
    (qm : List QualityRow) : Except String (List CombinedSampleData) :=
  (qm.foldlM processQualityRow
      (dx.foldl processDemuxRow (fq.foldl processFastqRow []))).map
    buildCombined

/-- Hex-digit test, matching the `[0-9a-fA-F]` character class of
`UUID_RE` in `sapio_types.py`. -/
def isHexChar (c : Char) : Bool :=
  c.isDigit || ('a' ≤ c && c ≤ 'f') || ('A' ≤ c && c ≤ 'F')

/-- Whether a character list is exactly one 36-character UUID-shaped
chunk: hyphens at offsets 8, 13, 18 and 23, hex digits elsewhere. -/
def isUUIDChunk (l : List Char) : Bool :=
  l.length == 36 &&
  l.enum.all (fun p =>
    if p.1 = 8 ∨ p.1 = 13 ∨ p.1 = 18 ∨ p.1 = 23 then p.2 == '-'
    else isHexChar p.2)

/-- Leftmost UUID-shaped substring of a character list (`UUID_RE.search`:
the pattern has fixed width, so the leftmost match is found by scanning
start positions left to right). -/
def findUUID : List Char → Option (List Char)
  | [] => none
  | c :: rest =>
      if isUUIDChunk ((c :: rest).take 36) then some ((c :: rest).take 36)
      else findUUID rest

/-- `UUID_RE.search(s)`, returning the matched substring. -/
def extractUUID (s : String) : Option String :=
  (findUUID s.data).map (fun l => String.mk l)

/-- The outward-facing LIMS record (`SequencingFile` in
`sapio_types.py`), restricted to its stored fields.  `UUID` values are
kept as their string form. -/
structure SequencingFile where
  record_id : Option Int
  sample_guid : String
  fastq_path_R1 : Option FsPath
  fastq_path_R2 : Option FsPath
  fastq_path_I1 : Option FsPath
  fastq_path_I2 : Option FsPath
  sample_name : Option String
  all_files_available : Bool
  readsPf : Option Int
  pfClustersPercentPerLane : Option Rat
  perfectIndexReadPercent : Option Rat
  oneMismatchIndexReadPercent : Option Rat
  yieldPfGb : Option Rat
  basesQ30Percent : Option Rat
  averageQScore : Option Rat
deriving DecidableEq, Repr

/-- The `dataReadPasses` computed field: 2 when both R1 and R2 paths are
set, 1 when only R1 is set, `None` otherwise (a `Path` object is always
truthy in Python, so truthiness of the optional paths is presence). -/
def SequencingFile.dataReadPasses (f : SequencingFile) : Option Int :=
  match f.fastq_path_R1, f.fastq_path_R2 with
  | some _, some _ => some 2
  | some _, none => some 1
  | none, _ => none

/-- `SequencingFile.from_bclconvert`: raises `ValueError` when no
UUID-shaped substring occurs in the sample id; when read-2 metrics are
absent, substitutes a copy of the read-1 metrics with read number 2 and
zero yield, zero Q30 yield and zero quality-score sum; then divides by the
summed yield with no zero guard — a zero summed yield raises
`ZeroDivisionError` (both exceptions embedded as `.error`). -/
def SequencingFile.from_bclconvert (d : CombinedSampleData) :
    Except String SequencingFile :=
  match extractUUID d.fastq.sample_id with
  | none => .error ("Unable to extract sample GUID from " ++ d.fastq.sample_id)
  | some guid =>
      let qc1 := d.quality_metrics_read1
      let qc2 :=
        match d.quality_metrics_read2 with
        | none =>
            { qc1 with
                read_number := 2
                yield_ := 0
                yield_q30 := 0
                quality_score_sum := 0 }
        | some q => q
      if qc1.yield_ + qc2.yield_ = 0 then
        .error "ZeroDivisionError: division by zero"
      else
        .ok
          { record_id := none
            sample_guid := guid
            fastq_path_R1 := some d.fastq.read1_file
            fastq_path_R2 := d.fastq.read2_file
            fastq_path_I1 := none
            fastq_path_I2 := none
            sample_name := some d.fastq.sample_id
            all_files_available := true
            readsPf := some d.demux_stats.num_reads
            pfClustersPercentPerLane := some (100 * d.demux_stats.percent_reads)
            perfectIndexReadPercent :=
              some (100 * d.demux_stats.percent_perfect_index_reads)
            oneMismatchIndexReadPercent :=
              some (100 * d.demux_stats.percent_one_mismatch_index_reads)
            yieldPfGb :=
              some (((qc1.yield_ : Rat) + (qc2.yield_ : Rat)) / 1000000000)
            basesQ30Percent :=
              some (100 * ((qc1.yield_q30 : Rat) + (qc2.yield_q30 : Rat)) /
                ((qc1.yield_ : Rat) + (qc2.yield_ : Rat)))
            averageQScore :=
              some (((qc1.quality_score_sum : Rat) + (qc2.quality_score_sum : Rat)) /
                ((qc1.yield_ : Rat) + (qc2.yield_ : Rat))) }

/-! ## Generic lemmas about the correlation map operations -/

theorem setFragment_cons_ne (k' : String) (v' : SampleFragment) (t : FragMap)
    (k : String) (v : SampleFragment) (h : k' ≠ k) :
    setFragment ((k', v') :: t) k v = (k', v') :: setFragment t k v := by
  simp [setFragment, h]

theorem updateFragment_cons_ne (k' : String) (v' : SampleFragment) (t : FragMap)
    (k : String) (g : SampleFragment → SampleFragment) (h : k' ≠ k) :
    updateFragment ((k', v') :: t) k g = (k', v') :: updateFragment t k g := by
  simp [updateFragment, h]

theorem updateFragment_cons_eq (k : String) (v : SampleFragment) (t : FragMap)
    (g : SampleFragment → SampleFragment) :
    updateFragment ((k, v) :: t) k g = (k, g v) :: t := by
  simp [updateFragment]

theorem hasKey_cons (k' : String) (v' : SampleFragment) (t : FragMap) (k : String) :
    hasKey ((k', v') :: t) k = (if k' = k then true else hasKey t k) := rfl

theorem processFastqRow_cons (k : String) (v : SampleFragment) (t : FragMap)
    (r : FastqRow) (h : ∀ e, r.parsed = some e → e.sample_id ≠ k) :
    processFastqRow ((k, v) :: t) r = (k, v) :: processFastqRow t r := by
  unfold processFastqRow
  by_cases hs : r.sampleIDField = some "Undetermined"
  · simp [hs]
  · simp only [if_neg hs]
    cases hp : r.parsed with
    | none => rfl
    | some e => exact setFragment_cons_ne k v t e.sample_id _ (Ne.symm (h e hp))

theorem processDemuxRow_cons (k : String) (v : SampleFragment) (t : FragMap)
    (r : DemuxRow) (h : ∀ e, r.parsed = some e → e.sample_id ≠ k) :
    processDemuxRow ((k, v) :: t) r = (k, v) :: processDemuxRow t r := by
  unfold processDemuxRow
  by_cases hs : r.sampleIDField = some "Undetermined"
  · simp [hs]
  · simp only [if_neg hs]
    cases hp : r.parsed with
    | none => rfl
    | some e =>
      have hk : k ≠ e.sample_id := Ne.symm (h e hp)
      dsimp only
      rw [hasKey_cons, if_neg hk]
      by_cases hh : hasKey t e.sample_id
      · simp only [hh, if_pos]
        exact updateFragment_cons_ne k v t e.sample_id _ hk
      · simp only [hh, Bool.false_eq_true, if_neg, List.cons_append]
        exact updateFragment_cons_ne k v _ e.sample_id _ hk

theorem processQualityRow_cons (k : String) (v : SampleFragment) (t : FragMap)
    (r : QualityRow) (h : ∀ e, r.parsed = some e → e.sample_id ≠ k) :
    processQualityRow ((k, v) :: t) r =
      (processQualityRow t r).map (fun m => (k, v) :: m) := by
  unfold processQualityRow
  by_cases hs : r.sampleIDField = some "Undetermined"
  · simp [hs, Except.map]
  · simp only [if_neg hs]
    cases hp : r.parsed with
    | none => rfl
    | some e =>
      have hk : k ≠ e.sample_id := Ne.symm (h e hp)
      dsimp only
      by_cases h1 : e.read_number = 1
      · rw [if_pos h1, if_pos h1, hasKey_cons, if_neg hk]
        by_cases hh : hasKey t e.sample_id
        · simp only [hh, if_pos]
          rw [updateFragment_cons_ne k v t e.sample_id _ hk]
          rfl
        · simp only [hh, Bool.false_eq_true, if_neg]
          rfl
      · rw [if_neg h1, if_neg h1]
        by_cases h2 : e.read_number = 2
        · rw [if_pos h2, if_pos h2, hasKey_cons, if_neg hk]
          by_cases hh : hasKey t e.sample_id
          · simp only [hh, if_pos]
            rw [updateFragment_cons_ne k v t e.sample_id _ hk]
            rfl
          · simp only [hh, Bool.false_eq_true, if_neg]
            rfl
        · rw [if_neg h2, if_neg h2]
          rfl

theorem foldl_processFastqRow_cons (k : String) (v : SampleFragment) (t : FragMap)
    (rows : List FastqRow)
    (h : ∀ r ∈ rows, ∀ e, r.parsed = some e → e.sample_id ≠ k) :
    rows.foldl processFastqRow ((k, v) :: t) =
      (k, v) :: rows.foldl processFastqRow t := by
  induction rows generalizing t with
  | nil => rfl
  | cons r rest ih =>
      simp only [List.foldl_cons]
      rw [processFastqRow_cons k v t r (h r (by simp) )]
      exact ih _ (fun r' hr' => h r' (by simp [hr']))

theorem foldl_processDemuxRow_cons (k : String) (v : SampleFragment) (t : FragMap)
    (rows : List DemuxRow)
    (h : ∀ r ∈ rows, ∀ e, r.parsed = some e → e.sample_id ≠ k) :
    rows.foldl processDemuxRow ((k, v) :: t) =
      (k, v) :: rows.foldl processDemuxRow t := by
  induction rows generalizing t with
  | nil => rfl
  | cons r rest ih =>
      simp only [List.foldl_cons]
      rw [processDemuxRow_cons k v t r (h r (by simp))]
      exact ih _ (fun r' hr' => h r' (by simp [hr']))

theorem foldlM_processQualityRow_cons (k : String) (v : SampleFragment) (t : FragMap)
    (rows : List QualityRow)
    (h : ∀ r ∈ rows, ∀ e, r.parsed = some e → e.sample_id ≠ k) :
    rows.foldlM processQualityRow ((k, v) :: t) =
      (rows.foldlM processQualityRow t).map (fun m => (k, v) :: m) := by
  induction rows generalizing t with
  | nil => rfl
  | cons r rest ih =>
      rw [List.foldlM_cons, List.foldlM_cons,
        processQualityRow_cons k v t r (h r (by simp))]
      cases hq : processQualityRow t r with
      | error e => rfl
      | ok t' =>
          simp only [Except.map, Except.bind]
          exact ih _ (fun r' hr' => h r' (by simp [hr']))

/-! ## Canonical well-formed run-output data (one generated sample set) -/

/-- One generated sample of a well-formed, complete run-output folder: its
fastq-list entry, demux-stats entry, read-1 quality entry and (for
paired-end samples) read-2 quality entry. -/
structure SampleSpec where
  fe : FastqListEntry
  dx : DemuxStats
  q1 : QualityMetrics
  q2 : Option QualityMetrics
deriving DecidableEq, Repr

/-- The sample id of a generated sample. -/
def SampleSpec.sid (s : SampleSpec) : String := s.fe.sample_id

/-- Well-formedness of one generated sample, as produced by a correct
BCLConvert run: consistent sample ids across the three reports, read
numbers 1 and 2, read-2 quality data present exactly for paired-end
samples, and a real (non-`"Undetermined"`) sample id. -/
structure SampleSpec.WF (s : SampleSpec) : Prop where
  dx_sid : s.dx.sample_id = s.sid
  q1_sid : s.q1.sample_id = s.sid
  q1_read : s.q1.read_number = 1
  q2_sid : ∀ q, s.q2 = some q → q.sample_id = s.sid
  q2_read : ∀ q, s.q2 = some q → q.read_number = 2
  q2_paired : s.q2.isSome ↔ s.fe.read2_file.isSome
  not_und : s.sid ≠ "Undetermined"

/-- The `fastq_list.csv` data row of a generated sample (the standard
header has no `SampleID` column; the id is carried in `RGSM`). -/
def fastqRowOf (s : SampleSpec) : FastqRow := ⟨none, some s.fe⟩

/-- The `Demultiplex_Stats.csv` data row of a generated sample (its
`SampleID` column is the source of the decoded `sample_id`). -/
def demuxRowOf (s : SampleSpec) : DemuxRow := ⟨some s.dx.sample_id, some s.dx⟩

/-- The `Quality_Metrics.csv` data rows of a generated sample: the read-1
row followed by the read-2 row when present. -/
def qualityRowsOf (s : SampleSpec) : List QualityRow :=
  ⟨some s.q1.sample_id, some s.q1⟩ ::
    (match s.q2 with
     | none => []
     | some q => [⟨some q.sample_id, some q⟩])

/-- The combined record expected for a generated sample. -/
def SampleSpec.record (s : SampleSpec) : CombinedSampleData :=
  ⟨s.fe, s.dx, s.q1, s.q2⟩

/-- The fully accumulated fragment expected for a generated sample. -/
def SampleSpec.fullFrag (s : SampleSpec) : SampleFragment :=
  ⟨some s.fe, some s.dx, some s.q1, s.q2⟩

theorem qualityRowsOf_sample_id (s : SampleSpec) (hs : s.WF) (r : QualityRow)
    (hr : r ∈ qualityRowsOf s) (e : QualityMetrics) (he : r.parsed = some e) :
    e.sample_id = s.sid := by
  unfold qualityRowsOf at hr
  rw [List.mem_cons] at hr
  rcases hr with rfl | hr
  · injection he with he2
    subst he2
    exact hs.q1_sid
  · cases hq : s.q2 with
    | none => rw [hq] at hr; simp at hr
    | some q =>
        rw [hq] at hr
        simp only [List.mem_singleton] at hr
        subst hr
        injection he with he2
        subst he2
        exact hs.q2_sid q hq

theorem fastq_stage (samples : List SampleSpec)
    (hnd : (samples.map SampleSpec.sid).Nodup) :
    (samples.map fastqRowOf).foldl processFastqRow [] =
      samples.map (fun s => (s.sid, { fastq := some s.fe })) := by
  induction samples with
  | nil => rfl
  | cons s rest ih =>
      rw [List.map_cons] at hnd
      rw [List.nodup_cons] at hnd
      simp only [List.map_cons, List.foldl_cons]
      have hstep : processFastqRow [] (fastqRowOf s) =
          [(s.sid, { fastq := some s.fe })] := rfl
      rw [hstep, foldl_processFastqRow_cons _ _ [] _ ?ids]
      case ids =>
        intro r hr e he
        rcases List.mem_map.mp hr with ⟨s', hs', rfl⟩
        cases he
        exact fun h => hnd.1 (h ▸ List.mem_map.mpr ⟨s', hs', rfl⟩)
      rw [ih hnd.2]

theorem demux_stage (samples : List SampleSpec)
    (hnd : (samples.map SampleSpec.sid).Nodup)
    (hwf : ∀ s ∈ samples, s.WF) :
    (samples.map demuxRowOf).foldl processDemuxRow
        (samples.map (fun s => (s.sid, { fastq := some s.fe }))) =
      samples.map
        (fun s => (s.sid, { fastq := some s.fe, demux_stats := some s.dx })) := by
  induction samples with
  | nil => rfl
  | cons s rest ih =>
      rw [List.map_cons] at hnd
      rw [List.nodup_cons] at hnd
      have hw := hwf s (by simp)
      simp only [List.map_cons, List.foldl_cons]
      have hstep : processDemuxRow
          ((s.sid, { fastq := some s.fe }) ::
            rest.map (fun s => (s.sid, { fastq := some s.fe }))) (demuxRowOf s) =
          (s.sid, { fastq := some s.fe, demux_stats := some s.dx }) ::
            rest.map (fun s => (s.sid, { fastq := some s.fe })) := by
        unfold processDemuxRow demuxRowOf
        have hne : ¬ (some s.dx.sample_id = some "Undetermined") := by
          simp only [Option.some.injEq]
          rw [hw.dx_sid]
          exact hw.not_und
        rw [if_neg hne]
        dsimp only
        rw [hw.dx_sid, hasKey_cons, if_pos rfl, if_pos rfl,
          updateFragment_cons_eq]
      rw [hstep, foldl_processDemuxRow_cons _ _ _ _ ?ids]
      case ids =>
        intro r hr e he
        rcases List.mem_map.mp hr with ⟨s', hs', rfl⟩
        cases he
        rw [(hwf s' (by simp [hs'])).dx_sid]
        exact fun h => hnd.1 (h ▸ List.mem_map.mpr ⟨s', hs', rfl⟩)
      rw [ih hnd.2 (fun s' hs' => hwf s' (by simp [hs']))]

theorem stepQuality1 (s : SampleSpec) (hw : s.WF) (f : SampleFragment) (t : FragMap) :
    processQualityRow ((s.sid, f) :: t) ⟨some s.q1.sample_id, some s.q1⟩ =
      .ok ((s.sid, { f with quality_metrics_read1 := some s.q1 }) :: t) := by
  unfold processQualityRow
  have hne : ¬ (some s.q1.sample_id = some "Undetermined") := by
    simp only [Option.some.injEq]
    rw [hw.q1_sid]
    exact hw.not_und
  rw [if_neg hne]
  dsimp only
  simp [hw.q1_sid, hw.q1_read, hasKey_cons, updateFragment_cons_eq]

theorem stepQuality2 (s : SampleSpec) (q : QualityMetrics) (hw : s.WF)
    (hq : s.q2 = some q) (f : SampleFragment) (t : FragMap) :
    processQualityRow ((s.sid, f) :: t) ⟨some q.sample_id, some q⟩ =
      .ok ((s.sid, { f with quality_metrics_read2 := some q }) :: t) := by
  unfold processQualityRow
  have hqs := hw.q2_sid q hq
  have hqr := hw.q2_read q hq
  have hne : ¬ (some q.sample_id = some "Undetermined") := by
    simp only [Option.some.injEq]
    rw [hqs]
    exact hw.not_und
  rw [if_neg hne]
  dsimp only
  simp [hqs, hqr, hasKey_cons, updateFragment_cons_eq]

theorem quality_stage (samples : List SampleSpec)
    (hnd : (samples.map SampleSpec.sid).Nodup)
    (hwf : ∀ s ∈ samples, s.WF) :
    (samples.flatMap qualityRowsOf).foldlM processQualityRow
        (samples.map
          (fun s => (s.sid, { fastq := some s.fe, demux_stats := some s.dx }))) =
      .ok (samples.map (fun s => (s.sid, s.fullFrag))) := by
  induction samples with
  | nil => rfl
  | cons s rest ih =>
      rw [List.map_cons] at hnd
      rw [List.nodup_cons] at hnd
      have hw := hwf s (by simp)
      simp only [List.flatMap_cons, List.map_cons]
      rw [List.foldlM_append]
      have hhead : (qualityRowsOf s).foldlM processQualityRow
          ((s.sid, { fastq := some s.fe, demux_stats := some s.dx }) ::
            rest.map
              (fun s => (s.sid, { fastq := some s.fe, demux_stats := some s.dx }))) =
          .ok ((s.sid, s.fullFrag) ::
            rest.map
              (fun s => (s.sid, { fastq := some s.fe, demux_stats := some s.dx }))) := by
        unfold qualityRowsOf SampleSpec.fullFrag
        cases hq : s.q2 with
        | none =>
            rw [List.foldlM_cons, stepQuality1 s hw]
            show List.foldlM processQualityRow _ [] = _
            rfl
        | some q =>
            rw [List.foldlM_cons, stepQuality1 s hw]
            show List.foldlM processQualityRow _ [_] = _
            rw [List.foldlM_cons, stepQuality2 s q hw hq]
            show List.foldlM processQualityRow _ [] = _
            rfl
      rw [hhead]
      show (rest.flatMap qualityRowsOf).foldlM processQualityRow _ = _
      rw [foldlM_processQualityRow_cons _ _ _ _ ?ids,
        ih hnd.2 (fun s' hs' => hwf s' (by simp [hs']))]
      · rfl
      case ids =>
        intro r hr e he
        rcases List.mem_flatMap.mp hr with ⟨s', hs', hr'⟩
        rw [qualityRowsOf_sample_id s' (hwf s' (by simp [hs'])) r hr' e he]
        exact fun h => hnd.1 (h ▸ List.mem_map.mpr ⟨s', hs', rfl⟩)

theorem checkCombined_ok_of_wf (s : SampleSpec) (hw : s.WF) :
    checkCombined s.fe s.dx s.q1 s.q2 = .ok ⟨s.fe, s.dx, s.q1, s.q2⟩ := by
  unfold checkCombined
  have h1 : s.fe.sample_id = s.dx.sample_id := hw.dx_sid.symm
  have h2 : s.fe.sample_id = s.q1.sample_id := hw.q1_sid.symm
  have h3 : s.q1.read_number = 1 := hw.q1_read
  rw [if_neg (not_not_intro h1)]
  rw [if_neg (not_not_intro h2)]
  have hpaired := hw.q2_paired
  cases hr2 : s.fe.read2_file with
  | none =>
      cases hq : s.q2 with
      | none =>
          dsimp only
          rw [if_neg (not_not_intro h3)]
      | some q =>
          rw [hr2, hq] at hpaired
          simp at hpaired
  | some r2 =>
      cases hq : s.q2 with
      | none =>
          rw [hr2, hq] at hpaired
          simp at hpaired
      | some q =>
          have h4 : s.fe.sample_id = q.sample_id := (hw.q2_sid q hq).symm
          have h5 : q.read_number = 2 := hw.q2_read q hq
          dsimp only
          rw [if_neg (not_not_intro h4)]
          rw [if_neg (not_not_intro h3)]
          rw [if_neg (not_not_intro h5)]

theorem buildCombined_acc (m : FragMap) (acc : List CombinedSampleData) :
    m.foldl (fun acc e =>
        match e.2.build with
        | .ok c => acc ++ [c]
        | .error _ => acc) acc =
      acc ++ buildCombined m := by
  unfold buildCombined
  induction m generalizing acc with
  | nil => simp
  | cons e t ih =>
      simp only [List.foldl_cons]
      cases hb : e.2.build with
      | ok c =>
          rw [ih (acc ++ [c]), ih ([] ++ [c])]
          simp
      | error err =>
          rw [ih acc, ih []]

theorem build_stage (samples : List SampleSpec) (hwf : ∀ s ∈ samples, s.WF) :
    buildCombined (samples.map (fun s => (s.sid, s.fullFrag))) =
      samples.map SampleSpec.record := by
  induction samples with
  | nil => rfl
  | cons s rest ih =>
      have hw := hwf s (by simp)
      have hb : s.fullFrag.build = .ok s.record := by
        unfold SampleSpec.fullFrag SampleFragment.build SampleSpec.record
        dsimp only
        exact checkCombined_ok_of_wf s hw
      simp only [List.map_cons]
      unfold buildCombined
      simp only [List.foldl_cons, hb]
      rw [buildCombined_acc]
      rw [ih (fun s' hs' => hwf s' (by simp [hs']))]
      simp

/-- **C1**: for every valid run-output folder whose three report files are
well-formed and complete — `N` generated samples with distinct sample ids,
one fastq-list row per sample (with the referenced fastq files present on
disk, so each row validates), one demux-stats row per sample, and a read-1
(plus, for paired-end samples, a read-2) quality-metrics row per sample —
`parse_bclconvert_folder` yields exactly the `N` combined records, one per
sample id in input order, with no loss and no duplication. -/
theorem C1_parse_yields_one_record_per_sample (samples : List SampleSpec)
    (hnd : (samples.map SampleSpec.sid).Nodup)
    (hwf : ∀ s ∈ samples, s.WF) :
    parse_bclconvert_folder (samples.map fastqRowOf) (samples.map demuxRowOf)
        (samples.flatMap qualityRowsOf) =
      .ok (samples.map SampleSpec.record) ∧
    (samples.map SampleSpec.record).map (fun c => c.fastq.sample_id) =
      samples.map SampleSpec.sid := by
  constructor
  · unfold parse_bclconvert_folder
    rw [fastq_stage samples hnd, demux_stage samples hnd hwf,
      quality_stage samples hnd hwf]
    show Except.ok (buildCombined (samples.map (fun s => (s.sid, s.fullFrag)))) = _
    rw [build_stage samples hwf]
  · rw [List.map_map]
    rfl

/-- A concrete paired-end sample used by the witnesses. -/
def sampleA : SampleSpec :=
  { fe :=
      { file := ["data", "run1", "BCLConvert", "fastq", "Reports", "fastq_list.csv"]
        read_group := "AAAAAAAA.CCCCCCC.1"
        sample_id := "Sample_1_11111111-2222-3333-4444-555555555555"
        library := "LIBRARY1"
        lane := 1
        read1_file := ["data", "run1", "BCLConvert", "fastq", "A_S1_R1.fastq.gz"]
        read2_file := some ["data", "run1", "BCLConvert", "fastq", "A_S1_R2.fastq.gz"] }
    dx :=
      { lane := 1
        sample_id := "Sample_1_11111111-2222-3333-4444-555555555555"
        index := "AAAAAAAA"
        num_reads := 1000
        num_perfect_index_reads := 990
        num_one_mismatch_index_reads := 8
        num_two_mismatch_index_reads := 2
        percent_reads := 1/2
        percent_perfect_index_reads := 99/100
        percent_one_mismatch_index_reads := 8/1000
        percent_two_mismatch_index_reads := 2/1000 }
    q1 :=
      { lane := 1
        sample_id := "Sample_1_11111111-2222-3333-4444-555555555555"
        index := "AAAAAAAA"
        index2 := "CCCCCCCC"
        read_number := 1
        yield_ := 150000
        yield_q30 := 140000
        quality_score_sum := 5000000
        mean_quality_score_pf := 100/3
        percent_q30 := 14/15 }
    q2 := some
      { lane := 1
        sample_id := "Sample_1_11111111-2222-3333-4444-555555555555"
        index := "AAAAAAAA"
        index2 := "CCCCCCCC"
        read_number := 2
        yield_ := 150000
        yield_q30 := 130000
        quality_score_sum := 4800000
        mean_quality_score_pf := 32
        percent_q30 := 13/15 } }

/-- A concrete single-end sample used by the witnesses. -/
def sampleB : SampleSpec :=
  { fe :=
      { file := ["data", "run1", "BCLConvert", "fastq", "Reports", "fastq_list.csv"]
        read_group := "AAAAAAAA.GGGGGGG.1"
        sample_id := "Sample_2_99999999-8888-7777-6666-555555555555"
        library := "LIBRARY1"
        lane := 1
        read1_file := ["data", "run1", "BCLConvert", "fastq", "B_S2_R1.fastq.gz"]
        read2_file := none }
    dx :=
      { lane := 1
        sample_id := "Sample_2_99999999-8888-7777-6666-555555555555"
        index := "GGGGGGGG"
        num_reads := 500
        num_perfect_index_reads := 495
        num_one_mismatch_index_reads := 5
        num_two_mismatch_index_reads := 0
        percent_reads := 1/4
        percent_perfect_index_reads := 99/100
        percent_one_mismatch_index_reads := 1/100
        percent_two_mismatch_index_reads := 0 }
    q1 :=
      { lane := 1
        sample_id := "Sample_2_99999999-8888-7777-6666-555555555555"
        index := "GGGGGGGG"
        index2 := "TTTTTTTT"
        read_number := 1
        yield_ := 75000
        yield_q30 := 70000
        quality_score_sum := 2500000
        mean_quality_score_pf := 100/3
        percent_q30 := 14/15 }
    q2 := none }

theorem sampleA_wf : sampleA.WF := by
  refine ⟨rfl, rfl, rfl, ?_, ?_, ?_, ?_⟩
  · intro q h
    cases h
    rfl
  · intro q h
    cases h
    rfl
  · exact Iff.rfl
  · decide

theorem sampleB_wf : sampleB.WF := by
  refine ⟨rfl, rfl, rfl, ?_, ?_, ?_, ?_⟩
  · intro q h
    exact Option.noConfusion h
  · intro q h
    exact Option.noConfusion h
  · exact Iff.rfl
  · decide

/-- Witness for C1 at a concrete two-sample (one paired-end, one
single-end) run-output folder. -/
theorem C1_witness :
    parse_bclconvert_folder ([sampleA, sampleB].map fastqRowOf)
        ([sampleA, sampleB].map demuxRowOf)
        ([sampleA, sampleB].flatMap qualityRowsOf) =
      .ok ([sampleA, sampleB].map SampleSpec.record) ∧
    ([sampleA, sampleB].map SampleSpec.record).map (fun c => c.fastq.sample_id) =
      [sampleA, sampleB].map SampleSpec.sid :=
  C1_parse_yields_one_record_per_sample [sampleA, sampleB]
    (by decide)
    (by
      intro s hs
      rw [List.mem_cons, List.mem_singleton] at hs
      rcases hs with rfl | rfl
      · exact sampleA_wf
      · exact sampleB_wf)

/-! ## Row-level failure recovery and the quality-row `KeyError` -/

theorem processFastqRow_noparse (m : FragMap) (r : FastqRow)
    (h : r.parsed = none) : processFastqRow m r = m := by
  unfold processFastqRow
  by_cases hs : r.sampleIDField = some "Undetermined" <;> simp [hs, h]

theorem processDemuxRow_noparse (m : FragMap) (r : DemuxRow)
    (h : r.parsed = none) : processDemuxRow m r = m := by
  unfold processDemuxRow
  by_cases hs : r.sampleIDField = some "Undetermined" <;> simp [hs, h]

theorem processQualityRow_noparse (m : FragMap) (r : QualityRow)
    (h : r.parsed = none) : processQualityRow m r = .ok m := by
  unfold processQualityRow
  by_cases hs : r.sampleIDField = some "Undetermined" <;> simp [hs, h]

theorem foldlM_quality_insert_noparse (l1 l2 : List QualityRow) (r : QualityRow)
    (h : r.parsed = none) (m : FragMap) :
    (l1 ++ r :: l2).foldlM processQualityRow m =
      (l1 ++ l2).foldlM processQualityRow m := by
  rw [List.foldlM_append, List.foldlM_append]
  cases h1 : l1.foldlM processQualityRow m with
  | error e => rfl
  | ok m' =>
      show (r :: l2).foldlM processQualityRow m' = l2.foldlM processQualityRow m'
      rw [List.foldlM_cons, processQualityRow_noparse m' r h]
      rfl

theorem hasKey_updateFragment (m : FragMap) (k : String)
    (g : SampleFragment → SampleFragment) (k' : String) :
    hasKey (updateFragment m k g) k' = hasKey m k' := by
  induction m with
  | nil => rfl
  | cons e t ih =>
      obtain ⟨ek, ev⟩ := e
      by_cases hk : ek = k
      · subst hk
        rw [updateFragment_cons_eq, hasKey_cons, hasKey_cons]
      · rw [updateFragment_cons_ne _ _ _ _ _ hk, hasKey_cons, hasKey_cons, ih]

theorem processQualityRow_ok_of_hasKey (m : FragMap) (r : QualityRow)
    (h : ∀ e, r.parsed = some e → ¬ r.sampleIDField = some "Undetermined" →
      hasKey m e.sample_id = true) :
    ∃ m', processQualityRow m r = .ok m' ∧ ∀ k, hasKey m' k = hasKey m k := by
  unfold processQualityRow
  by_cases hs : r.sampleIDField = some "Undetermined"
  · exact ⟨m, by simp [hs], fun k => rfl⟩
  · rw [if_neg hs]
    cases hp : r.parsed with
    | none => exact ⟨m, rfl, fun k => rfl⟩
    | some e =>
        have hk := h e hp hs
        dsimp only
        by_cases h1 : e.read_number = 1
        · rw [if_pos h1, hk]
          exact ⟨_, by rw [if_pos rfl], fun k => hasKey_updateFragment m _ _ k⟩
        · rw [if_neg h1]
          by_cases h2 : e.read_number = 2
          · rw [if_pos h2, hk]
            exact ⟨_, by rw [if_pos rfl], fun k => hasKey_updateFragment m _ _ k⟩
          · rw [if_neg h2]
            exact ⟨m, rfl, fun k => rfl⟩

theorem foldlM_quality_ok (rows : List QualityRow) (m : FragMap)
    (h : ∀ r ∈ rows, ∀ e, r.parsed = some e →
      ¬ r.sampleIDField = some "Undetermined" → hasKey m e.sample_id = true) :
    ∃ m', rows.foldlM processQualityRow m = .ok m' := by
  induction rows generalizing m with
  | nil => exact ⟨m, rfl⟩
  | cons r rest ih =>
      obtain ⟨m', hm', hkeys⟩ :=
        processQualityRow_ok_of_hasKey m r (h r (by simp))
      obtain ⟨m'', hm''⟩ := ih m' (fun r' hr' e he hs => by
        rw [hkeys]
        exact h r' (by simp [hr']) e he hs)
      refine ⟨m'', ?_⟩
      rw [List.foldlM_cons, hm']
      exact hm''

/-- **C2** (amended): row-level `ValidationError` failures are recovered
locally — a fastq-list, demux-stats or quality-metrics row that fails to
decode is skipped and the overall output is exactly that of the input
without it — and when every decodable, non-`"Undetermined"` quality-metrics
row carries a sample id present in the correlation map built from the
fastq-list and demux-stats data, `parse_bclconvert_folder` completes
without aborting.  (The unamended claim fails: a quality-metrics row whose
sample id appears in neither source raises an uncaught `KeyError`, see the
counterexample.) -/
theorem C2_row_failures_recovered_locally
    (fq1 fq2 : List FastqRow) (dx1 dx2 : List DemuxRow) (qm1 qm2 : List QualityRow)
    (rf : FastqRow) (rd : DemuxRow) (rq : QualityRow)
    (hf : rf.parsed = none) (hd : rd.parsed = none) (hq : rq.parsed = none)
    (hcov : ∀ r ∈ qm1 ++ qm2, ∀ e, r.parsed = some e →
      ¬ r.sampleIDField = some "Undetermined" →
      hasKey ((dx1 ++ dx2).foldl processDemuxRow
        ((fq1 ++ fq2).foldl processFastqRow [])) e.sample_id = true) :
    parse_bclconvert_folder (fq1 ++ rf :: fq2) (dx1 ++ rd :: dx2) (qm1 ++ rq :: qm2) =
      parse_bclconvert_folder (fq1 ++ fq2) (dx1 ++ dx2) (qm1 ++ qm2) ∧
    (parse_bclconvert_folder (fq1 ++ fq2) (dx1 ++ dx2) (qm1 ++ qm2)).isOk = true := by
  have hfq : (fq1 ++ rf :: fq2).foldl processFastqRow [] =
      (fq1 ++ fq2).foldl processFastqRow [] := by
    rw [List.foldl_append, List.foldl_append, List.foldl_cons,
      processFastqRow_noparse _ rf hf]
  have hdx : ∀ m : FragMap, (dx1 ++ rd :: dx2).foldl processDemuxRow m =
      (dx1 ++ dx2).foldl processDemuxRow m := by
    intro m
    rw [List.foldl_append, List.foldl_append, List.foldl_cons,
      processDemuxRow_noparse _ rd hd]
  constructor
  · unfold parse_bclconvert_folder
    rw [hfq, hdx, foldlM_quality_insert_noparse qm1 qm2 rq hq]
  · unfold parse_bclconvert_folder
    obtain ⟨m', hm'⟩ := foldlM_quality_ok (qm1 ++ qm2) _ hcov
    rw [hm']
    rfl

/-- A quality-metrics row whose sample id appears in no other report. -/
def ghostQM : QualityMetrics :=
  { lane := 1
    sample_id := "ghost"
    index := "AAAAAAAA"
    index2 := "CCCCCCCC"
    read_number := 1
    yield_ := 100
    yield_q30 := 90
    quality_score_sum := 3000
    mean_quality_score_pf := 30
    percent_q30 := 9/10 }

/-- Counterexample to C2 as stated: a quality-metrics row whose sample id
(`"ghost"`) appears in neither the fastq-list nor the demux-stats data
aborts `parse_bclconvert_folder` with an uncaught `KeyError`, and the
well-formed sample `sampleA` present in all three reports is lost from the
output instead of being yielded. -/
theorem C2_counterexample :
    parse_bclconvert_folder [fastqRowOf sampleA] [demuxRowOf sampleA]
        [⟨some "ghost", some ghostQM⟩, ⟨some sampleA.q1.sample_id, some sampleA.q1⟩] =
      .error "KeyError: ghost" := by
  rfl

/-- Witness for C2: dropping one undecodable row from each report leaves
the output unchanged, and the reduced input parses without aborting. -/
theorem C2_witness :
    parse_bclconvert_folder
        ([fastqRowOf sampleA] ++ ⟨none, none⟩ :: [])
        ([demuxRowOf sampleA] ++ ⟨some "bad", none⟩ :: [])
        ([⟨some sampleA.q1.sample_id, some sampleA.q1⟩] ++ ⟨none, none⟩ :: []) =
      parse_bclconvert_folder ([fastqRowOf sampleA] ++ [])
        ([demuxRowOf sampleA] ++ [])
        ([⟨some sampleA.q1.sample_id, some sampleA.q1⟩] ++ []) ∧
    (parse_bclconvert_folder ([fastqRowOf sampleA] ++ [])
        ([demuxRowOf sampleA] ++ [])
        ([⟨some sampleA.q1.sample_id, some sampleA.q1⟩] ++ [])).isOk = true :=
  C2_row_failures_recovered_locally [fastqRowOf sampleA] [] [demuxRowOf sampleA] []
    [⟨some sampleA.q1.sample_id, some sampleA.q1⟩] [] ⟨none, none⟩ ⟨some "bad", none⟩
    ⟨none, none⟩ rfl rfl rfl
    (by
      intro r hr e he hs
      rw [List.mem_append, List.mem_singleton] at hr
      rcases hr with rfl | hr
      · injection he with he2
        subst he2
        decide
      · cases hr)

/-! ## Inversion of combined-record construction, and the Undetermined skip -/

theorem checkCombined_ok (fq : FastqListEntry) (dx : DemuxStats)
    (q1 : QualityMetrics) (q2 : Option QualityMetrics) (c : CombinedSampleData)
    (h : checkCombined fq dx q1 q2 = .ok c) :
    c = ⟨fq, dx, q1, q2⟩ ∧ fq.sample_id = dx.sample_id ∧
    fq.sample_id = q1.sample_id ∧ (∀ q, q2 = some q → fq.sample_id = q.sample_id) ∧
    (q2.isSome ↔ fq.read2_file.isSome) ∧ q1.read_number = 1 ∧
    (∀ q, q2 = some q → q.read_number = 2) := by
  unfold checkCombined at h
  by_cases h1 : fq.sample_id ≠ dx.sample_id
  · rw [if_pos h1] at h
    exact absurd h (by simp)
  rw [if_neg h1] at h
  by_cases h2 : fq.sample_id ≠ q1.sample_id
  · rw [if_pos h2] at h
    exact absurd h (by simp)
  rw [if_neg h2] at h
  cases hr2 : fq.read2_file with
  | none =>
      cases hq2 : q2 with
      | none =>
          rw [hr2, hq2] at h
          dsimp only at h
          by_cases h3 : q1.read_number ≠ 1
          · rw [if_pos h3] at h
            exact absurd h (by simp)
          rw [if_neg h3] at h
          injection h with h
          refine ⟨h.symm, not_not.mp h1, not_not.mp h2, ?_, ?_, not_not.mp h3, ?_⟩
          · intro q hq
            exact Option.noConfusion hq
          · exact Iff.rfl
          · intro q hq
            exact Option.noConfusion hq
      | some q =>
          rw [hr2, hq2] at h
          exact absurd h (by simp)
  | some r2 =>
      cases hq2 : q2 with
      | none =>
          rw [hr2, hq2] at h
          exact absurd h (by simp)
      | some q =>
          rw [hr2, hq2] at h
          dsimp only at h
          by_cases h3 : fq.sample_id ≠ q.sample_id
          · rw [if_pos h3] at h
            exact absurd h (by simp)
          rw [if_neg h3] at h
          by_cases h4 : q1.read_number ≠ 1
          · rw [if_pos h4] at h
            exact absurd h (by simp)
          rw [if_neg h4] at h
          by_cases h5 : q.read_number ≠ 2
          · rw [if_pos h5] at h
            exact absurd h (by simp)
          rw [if_neg h5] at h
          injection h with h
          refine ⟨h.symm, not_not.mp h1, not_not.mp h2, ?_, ?_, not_not.mp h4, ?_⟩
          · intro q' hq'
            injection hq' with hq'
            subst hq'
            exact not_not.mp h3
          · simp
          · intro q' hq'
            injection hq' with hq'
            subst hq'
            exact not_not.mp h5

theorem build_ok_fields (f : SampleFragment) (c : CombinedSampleData)
    (h : f.build = .ok c) :
    f.fastq = some c.fastq ∧ f.demux_stats = some c.demux_stats ∧
    c.fastq.sample_id = c.demux_stats.sample_id := by
  unfold SampleFragment.build at h
  cases hf : f.fastq with
  | none => rw [hf] at h; exact absurd h (by simp)
  | some fq =>
      cases hd : f.demux_stats with
      | none => rw [hf, hd] at h; exact absurd h (by simp)
      | some dx =>
          cases hq : f.quality_metrics_read1 with
          | none => rw [hf, hd, hq] at h; exact absurd h (by simp)
          | some q1 =>
              rw [hf, hd, hq] at h
              dsimp only at h
              obtain ⟨hc, hid, -⟩ := checkCombined_ok fq dx q1 _ c h
              subst hc
              exact ⟨rfl, rfl, hid⟩

theorem mem_setFragment (m : FragMap) (k : String) (v : SampleFragment)
    (x : String × SampleFragment) (hx : x ∈ setFragment m k v) :
    x ∈ m ∨ x = (k, v) := by
  induction m with
  | nil =>
      unfold setFragment at hx
      rw [List.mem_singleton] at hx
      exact Or.inr hx
  | cons e t ih =>
      obtain ⟨k', v'⟩ := e
      by_cases hk : k' = k
      · subst hk
        unfold setFragment at hx
        rw [if_pos rfl, List.mem_cons] at hx
        rcases hx with rfl | hx
        · exact Or.inr rfl
        · exact Or.inl (List.mem_cons_of_mem _ hx)
      · rw [setFragment_cons_ne _ _ _ _ _ hk, List.mem_cons] at hx
        rcases hx with rfl | hx
        · exact Or.inl (List.mem_cons_self _ _)
        · rcases ih hx with hx | rfl
          · exact Or.inl (List.mem_cons_of_mem _ hx)
          · exact Or.inr rfl

theorem mem_updateFragment (m : FragMap) (k : String)
    (g : SampleFragment → SampleFragment) (x : String × SampleFragment)
    (hx : x ∈ updateFragment m k g) :
    x ∈ m ∨ ∃ y, y ∈ m ∧ x = (y.1, g y.2) := by
  induction m with
  | nil =>
      unfold updateFragment at hx
      cases hx
  | cons e t ih =>
      obtain ⟨k', v'⟩ := e
      by_cases hk : k' = k
      · subst hk
        rw [updateFragment_cons_eq, List.mem_cons] at hx
        rcases hx with rfl | hx
        · exact Or.inr ⟨(k', v'), List.mem_cons_self _ _, rfl⟩
        · exact Or.inl (List.mem_cons_of_mem _ hx)
      · rw [updateFragment_cons_ne _ _ _ _ _ hk, List.mem_cons] at hx
        rcases hx with rfl | hx
        · exact Or.inl (List.mem_cons_self _ _)
        · rcases ih hx with hx | ⟨y, hy, rfl⟩
          · exact Or.inl (List.mem_cons_of_mem _ hx)
          · exact Or.inr ⟨y, List.mem_cons_of_mem _ hy, rfl⟩

/-- Invariant of the correlation map: no attached demux-stats entry carries
the sample id `"Undetermined"` (such rows are always skipped). -/
def DemuxOK (m : FragMap) : Prop :=
  ∀ x ∈ m, ∀ d, x.2.demux_stats = some d → d.sample_id ≠ "Undetermined"

theorem demuxOK_processFastqRow (m : FragMap) (r : FastqRow) (h : DemuxOK m) :
    DemuxOK (processFastqRow m r) := by
  unfold processFastqRow
  by_cases hs : r.sampleIDField = some "Undetermined"
  · rw [if_pos hs]
    exact h
  rw [if_neg hs]
  cases hp : r.parsed with
  | none => exact h
  | some e =>
      dsimp only
      intro x hx d hd
      rcases mem_setFragment _ _ _ _ hx with hx | rfl
      · exact h x hx d hd
      · exact Option.noConfusion hd

theorem demuxOK_processDemuxRow (m : FragMap) (r : DemuxRow)
    (hlink : ∀ e, r.parsed = some e → r.sampleIDField = some e.sample_id)
    (h : DemuxOK m) : DemuxOK (processDemuxRow m r) := by
  unfold processDemuxRow
  by_cases hs : r.sampleIDField = some "Undetermined"
  · rw [if_pos hs]
    exact h
  rw [if_neg hs]
  cases hp : r.parsed with
  | none => exact h
  | some e =>
      dsimp only
      have hid : e.sample_id ≠ "Undetermined" := by
        intro hcontra
        exact hs (by rw [hlink e hp, hcontra])
      have hbase : DemuxOK (if hasKey m e.sample_id = true then m
          else m ++ [(e.sample_id, ⟨none, none, none, none⟩)]) := by
        by_cases hk : hasKey m e.sample_id
        · rw [if_pos hk]
          exact h
        · rw [if_neg hk]
          intro x hx d hd
          rw [List.mem_append, List.mem_singleton] at hx
          rcases hx with hx | rfl
          · exact h x hx d hd
          · exact Option.noConfusion hd
      intro x hx d hd
      rcases mem_updateFragment _ _ _ _ hx with hx | ⟨y, hy, rfl⟩
      · exact hbase x hx d hd
      · dsimp only at hd
        injection hd with hd
        rw [← hd]
        exact hid

theorem demuxOK_processQualityRow (m m' : FragMap) (r : QualityRow)
    (hok : processQualityRow m r = .ok m') (h : DemuxOK m) : DemuxOK m' := by
  unfold processQualityRow at hok
  by_cases hs : r.sampleIDField = some "Undetermined"
  · rw [if_pos hs] at hok
    injection hok with hok
    exact hok ▸ h
  rw [if_neg hs] at hok
  cases hp : r.parsed with
  | none =>
      rw [hp] at hok
      injection hok with hok
      exact hok ▸ h
  | some e =>
      rw [hp] at hok
      dsimp only at hok
      have hupd : ∀ g : SampleFragment → SampleFragment,
          (∀ f : SampleFragment, (g f).demux_stats = f.demux_stats) →
          m' = updateFragment m e.sample_id g → DemuxOK m' := by
        intro g hg hm'
        subst hm'
        intro x hx d hd
        rcases mem_updateFragment _ _ _ _ hx with hx | ⟨y, hy, rfl⟩
        · exact h x hx d hd
        · rw [hg y.2] at hd
          exact h y hy d hd
      by_cases h1 : e.read_number = 1
      · rw [if_pos h1] at hok
        by_cases hk : hasKey m e.sample_id
        · rw [if_pos hk] at hok
          injection hok with hok
          exact hupd (fun f => { f with quality_metrics_read1 := some e })
            (fun f => rfl) hok.symm
        · rw [if_neg hk] at hok
          exact absurd hok (by simp)
      · rw [if_neg h1] at hok
        by_cases h2 : e.read_number = 2
        · rw [if_pos h2] at hok
          by_cases hk : hasKey m e.sample_id
          · rw [if_pos hk] at hok
            injection hok with hok
            exact hupd (fun f => { f with quality_metrics_read2 := some e })
              (fun f => rfl) hok.symm
          · rw [if_neg hk] at hok
            exact absurd hok (by simp)
        · rw [if_neg h2] at hok
          injection hok with hok
          exact hok ▸ h

theorem demuxOK_foldFastq (rows : List FastqRow) (m : FragMap) (h : DemuxOK m) :
    DemuxOK (rows.foldl processFastqRow m) := by
  induction rows generalizing m with
  | nil => exact h
  | cons r rest ih => exact ih _ (demuxOK_processFastqRow m r h)

theorem demuxOK_foldDemux (rows : List DemuxRow) (m : FragMap)
    (hlink : ∀ r ∈ rows, ∀ e, r.parsed = some e →
      r.sampleIDField = some e.sample_id)
    (h : DemuxOK m) : DemuxOK (rows.foldl processDemuxRow m) := by
  induction rows generalizing m with
  | nil => exact h
  | cons r rest ih =>
      exact ih _ (fun r' hr' => hlink r' (by simp [hr']))
        (demuxOK_processDemuxRow m r (hlink r (by simp)) h)

theorem demuxOK_foldQuality (rows : List QualityRow) (m m' : FragMap)
    (hok : rows.foldlM processQualityRow m = .ok m') (h : DemuxOK m) :
    DemuxOK m' := by
  induction rows generalizing m with
  | nil =>
      injection hok with hok
      exact hok ▸ h
  | cons r rest ih =>
      rw [List.foldlM_cons] at hok
      cases h1 : processQualityRow m r with
      | error e => rw [h1] at hok; exact Except.noConfusion hok
      | ok m1 =>
          rw [h1] at hok
          exact ih m1 hok (demuxOK_processQualityRow m m1 r h1 h)

theorem buildCombined_cons (e : String × SampleFragment) (t : FragMap) :
    buildCombined (e :: t) =
      (match e.2.build with
       | .ok c => [c]
       | .error _ => []) ++ buildCombined t := by
  show (e :: t).foldl _ [] = _
  rw [List.foldl_cons]
  cases hb : e.2.build with
  | ok c =>
      dsimp only
      rw [buildCombined_acc]
      simp
  | error err =>
      dsimp only
      rw [buildCombined_acc]

theorem mem_buildCombined (m : FragMap) (c : CombinedSampleData)
    (hc : c ∈ buildCombined m) : ∃ x ∈ m, x.2.build = .ok c := by
  induction m with
  | nil => cases hc
  | cons e t ih =>
      rw [buildCombined_cons, List.mem_append] at hc
      rcases hc with hc | hc
      · refine ⟨e, List.mem_cons_self _ _, ?_⟩
        cases hb : e.2.build with
        | ok c' =>
            rw [hb] at hc
            rw [List.mem_singleton] at hc
            rw [hc]
        | error err =>
            rw [hb] at hc
            cases hc
      · obtain ⟨x, hx, hbx⟩ := ih hc
        exact ⟨x, List.mem_cons_of_mem _ hx, hbx⟩

/-- **C5** (amended): the `"Undetermined"` sentinel is checked against the
`SampleID` column of each raw row, which exists in `Demultiplex_Stats.csv`
and `Quality_Metrics.csv` but not in `fastq_list.csv` (whose sample id
lives in the `RGSM` column), so an `"Undetermined"` fastq-list row is *not*
skipped — it is parsed and seeds the correlation map (see the
counterexample); demux-stats and quality-metrics rows whose `SampleID` is
`"Undetermined"` are skipped unconditionally, and consequently no
`"Undetermined"` row of any report ever contributes to a yielded
`CombinedSampleData`: every record in a successful output has a
non-`"Undetermined"` sample id. -/
theorem C5_no_undetermined_output (fqRows : List FastqRow) (dxRows : List DemuxRow)
    (qmRows : List QualityRow)
    (hlink : ∀ r ∈ dxRows, ∀ e, r.parsed = some e →
      r.sampleIDField = some e.sample_id)
    (out : List CombinedSampleData)
    (hout : parse_bclconvert_folder fqRows dxRows qmRows = .ok out) :
    ∀ c ∈ out, c.fastq.sample_id ≠ "Undetermined" := by
  intro c hc
  unfold parse_bclconvert_folder at hout
  cases hq : qmRows.foldlM processQualityRow
      (dxRows.foldl processDemuxRow (fqRows.foldl processFastqRow [])) with
  | error e =>
      rw [hq] at hout
      exact Except.noConfusion hout
  | ok m3 =>
      rw [hq] at hout
      injection hout with hout
      subst hout
      have hOK : DemuxOK m3 :=
        demuxOK_foldQuality qmRows _ m3 hq
          (demuxOK_foldDemux dxRows _ hlink
            (demuxOK_foldFastq fqRows [] (fun x hx => absurd hx (List.not_mem_nil x))))
      obtain ⟨x, hx, hbx⟩ := mem_buildCombined m3 c hc
      obtain ⟨-, hdx, hid⟩ := build_ok_fields x.2 c hbx
      rw [hid]
      exact hOK x hx c.demux_stats hdx

/-- An `"Undetermined"` row of `fastq_list.csv`, as decoded through `RGSM`
(such rows exist in real BCLConvert output and reference real fastq
files). -/
def undeterminedFE : FastqListEntry :=
  { file := ["data", "run1", "BCLConvert", "fastq", "Reports", "fastq_list.csv"]
    read_group := "AAAAAAAA.CCCCCCC.1"
    sample_id := "Undetermined"
    library := "UnknownLibrary"
    lane := 1
    read1_file := ["data", "run1", "BCLConvert", "fastq", "Undetermined_S0_R1.fastq.gz"]
    read2_file := none }

/-- Counterexample to C5 as stated: a `fastq_list.csv` row whose sample id
equals `"Undetermined"` is *not* skipped by the fastq-list loop — the loop
consults the `SampleID` column, absent from `fastq_list.csv` headers, so
the row is decoded and entered into the correlation map instead of leaving
the map unchanged. -/
theorem C5_counterexample :
    [(⟨none, some undeterminedFE⟩ : FastqRow)].foldl processFastqRow [] =
      [("Undetermined", { fastq := some undeterminedFE })] ∧
    [(⟨none, some undeterminedFE⟩ : FastqRow)].foldl processFastqRow [] ≠ [] := by
  constructor
  · rfl
  · decide

/-- An `"Undetermined"` demux-stats row (skipped by the demux loop). -/
def undeterminedDX : DemuxStats :=
  { lane := 1
    sample_id := "Undetermined"
    index := "NNNNNNNN"
    num_reads := 17
    num_perfect_index_reads := 0
    num_one_mismatch_index_reads := 0
    num_two_mismatch_index_reads := 0
    percent_reads := 1/100
    percent_perfect_index_reads := 0
    percent_one_mismatch_index_reads := 0
    percent_two_mismatch_index_reads := 0 }

/-- Witness for C5 at a concrete folder containing `"Undetermined"` rows in
the fastq-list and demux-stats reports next to the real sample `sampleA`:
the parse succeeds and the yielded record does not carry the sentinel id. -/
theorem C5_witness :
    (SampleSpec.record sampleA).fastq.sample_id ≠ "Undetermined" :=
  C5_no_undetermined_output
    [⟨none, some undeterminedFE⟩, fastqRowOf sampleA]
    [⟨some "Undetermined", some undeterminedDX⟩, demuxRowOf sampleA]
    (qualityRowsOf sampleA)
    (by
      intro r hr e he
      rw [List.mem_cons, List.mem_singleton] at hr
      rcases hr with rfl | rfl
      · injection he with he2
        subst he2
        rfl
      · injection he with he2
        subst he2
        rfl)
    [SampleSpec.record sampleA]
    (by rfl)
    (SampleSpec.record sampleA) (List.mem_singleton.mpr rfl)

theorem checkCombined_ok_of_consistent (fq : FastqListEntry) (dx : DemuxStats)
    (q1 : QualityMetrics) (q2 : Option QualityMetrics)
    (h1 : fq.sample_id = dx.sample_id) (h2 : fq.sample_id = q1.sample_id)
    (h3 : ∀ q, q2 = some q → fq.sample_id = q.sample_id)
    (h4 : q2.isSome ↔ fq.read2_file.isSome)
    (h5 : q1.read_number = 1) (h6 : ∀ q, q2 = some q → q.read_number = 2) :
    checkCombined fq dx q1 q2 = .ok ⟨fq, dx, q1, q2⟩ := by
  unfold checkCombined
  rw [if_neg (not_not_intro h1), if_neg (not_not_intro h2)]
  cases hr2 : fq.read2_file with
  | none =>
      cases hq2 : q2 with
      | none =>
          dsimp only
          rw [if_neg (not_not_intro h5)]
      | some q =>
          rw [hr2, hq2] at h4
          simp at h4
  | some r2 =>
      cases hq2 : q2 with
      | none =>
          rw [hr2, hq2] at h4
          simp at h4
      | some q =>
          dsimp only
          rw [if_neg (not_not_intro (h3 q hq2)), if_neg (not_not_intro h5),
            if_neg (not_not_intro (h6 q hq2))]

/-- **C7**: a `CombinedSampleData` is constructed successfully exactly when
the cross-source invariants hold — identical sample id across the
fastq-list, demux-stats and read-1 (and, if present, read-2)
quality-metrics constituents; read-2 quality metrics present iff the fastq
entry has a read-2 file; read-1 metrics with read number 1 and read-2
metrics with read number 2 — and on success the record is exactly the given
constituents, so every constructed record satisfies the invariants;
construction fails (`ValidationError`) whenever any invariant is
violated. -/
theorem C7_construction_invariants (fq : FastqListEntry) (dx : DemuxStats)
    (q1 : QualityMetrics) (q2 : Option QualityMetrics) :
    (∀ c, checkCombined fq dx q1 q2 = .ok c →
      c = ⟨fq, dx, q1, q2⟩ ∧
      c.fastq.sample_id = c.demux_stats.sample_id ∧
      c.fastq.sample_id = c.quality_metrics_read1.sample_id ∧
      (∀ q, c.quality_metrics_read2 = some q → c.fastq.sample_id = q.sample_id) ∧
      (c.quality_metrics_read2.isSome ↔ c.fastq.read2_file.isSome) ∧
      c.quality_metrics_read1.read_number = 1 ∧
      (∀ q, c.quality_metrics_read2 = some q → q.read_number = 2)) ∧
    ((∃ c, checkCombined fq dx q1 q2 = .ok c) ↔
      (fq.sample_id = dx.sample_id ∧ fq.sample_id = q1.sample_id ∧
       (∀ q, q2 = some q → fq.sample_id = q.sample_id) ∧
       (q2.isSome ↔ fq.read2_file.isSome) ∧ q1.read_number = 1 ∧
       (∀ q, q2 = some q → q.read_number = 2))) := by
  constructor
  · intro c hc
    obtain ⟨hceq, h1, h2, h3, h4, h5, h6⟩ := checkCombined_ok fq dx q1 q2 c hc
    subst hceq
    exact ⟨rfl, h1, h2, h3, h4, h5, h6⟩
  · constructor
    · rintro ⟨c, hc⟩
      obtain ⟨-, h1, h2, h3, h4, h5, h6⟩ := checkCombined_ok fq dx q1 q2 c hc
      exact ⟨h1, h2, h3, h4, h5, h6⟩
    · rintro ⟨h1, h2, h3, h4, h5, h6⟩
      exact ⟨⟨fq, dx, q1, q2⟩,
        checkCombined_ok_of_consistent fq dx q1 q2 h1 h2 h3 h4 h5 h6⟩

/-- Witness for C7: the paired-end constituents of `sampleA` satisfy the
invariants, so construction succeeds on them. -/
theorem C7_witness :
    ∃ c, checkCombined sampleA.fe sampleA.dx sampleA.q1 sampleA.q2 = .ok c :=
  (C7_construction_invariants sampleA.fe sampleA.dx sampleA.q1 sampleA.q2).2.mpr
    ⟨rfl, rfl, fun q hq => by cases hq; rfl, Iff.rfl, rfl,
      fun q hq => by cases hq; rfl⟩

/-! ## Derived QC metrics (`SequencingFile.from_bclconvert`) -/

/-- **C3**: for every combined record mapped successfully, with read-1
yield `Y1`, Q30 yield `Q1` and quality-score sum `S1`, and `Y2`, `Q2`, `S2`
the corresponding read-2 figures with `0` substituted when read-2 data is
absent, the produced record has `basesQ30Percent = 100*(Q1+Q2)/(Y1+Y2)`,
`yieldPfGb = (Y1+Y2)/10⁹` and `averageQScore = (S1+S2)/(Y1+Y2)` (exact
rational arithmetic); in particular for single-end input
`basesQ30Percent = 100*Q1/Y1`. -/
theorem C3_derived_qc_formulas (d : CombinedSampleData) (f : SequencingFile)
    (h : SequencingFile.from_bclconvert d = .ok f) :
    f.basesQ30Percent = some (100 *
        ((d.quality_metrics_read1.yield_q30 : Rat) +
          (d.quality_metrics_read2.map (fun q => (q.yield_q30 : Rat))).getD 0) /
        ((d.quality_metrics_read1.yield_ : Rat) +
          (d.quality_metrics_read2.map (fun q => (q.yield_ : Rat))).getD 0)) ∧
    f.yieldPfGb = some
        (((d.quality_metrics_read1.yield_ : Rat) +
          (d.quality_metrics_read2.map (fun q => (q.yield_ : Rat))).getD 0) /
          1000000000) ∧
    f.averageQScore = some
        (((d.quality_metrics_read1.quality_score_sum : Rat) +
          (d.quality_metrics_read2.map
            (fun q => (q.quality_score_sum : Rat))).getD 0) /
        ((d.quality_metrics_read1.yield_ : Rat) +
          (d.quality_metrics_read2.map (fun q => (q.yield_ : Rat))).getD 0)) ∧
    (d.quality_metrics_read2 = none →
      f.basesQ30Percent = some (100 * (d.quality_metrics_read1.yield_q30 : Rat) /
        (d.quality_metrics_read1.yield_ : Rat))) := by
  unfold SequencingFile.from_bclconvert at h
  cases hg : extractUUID d.fastq.sample_id with
  | none =>
      rw [hg] at h
      exact Except.noConfusion h
  | some guid =>
      rw [hg] at h
      cases hq2 : d.quality_metrics_read2 with
      | none =>
          rw [hq2] at h
          dsimp only at h
          split at h
          · exact Except.noConfusion h
          · injection h with h
            subst h
            refine ⟨?_, ?_, ?_, ?_⟩ <;> simp
      | some q =>
          rw [hq2] at h
          dsimp only at h
          split at h
          · exact Except.noConfusion h
          · injection h with h
            subst h
            refine ⟨by simp, by simp, by simp, ?_⟩
            intro hcontra
            exact Option.noConfusion hcontra

/-- The `SequencingFile` produced for `sampleB` (single-end). -/
def seqFileB : SequencingFile :=
  { record_id := none
    sample_guid := "99999999-8888-7777-6666-555555555555"
    fastq_path_R1 := some ["data", "run1", "BCLConvert", "fastq", "B_S2_R1.fastq.gz"]
    fastq_path_R2 := none
    fastq_path_I1 := none
    fastq_path_I2 := none
    sample_name := some "Sample_2_99999999-8888-7777-6666-555555555555"
    all_files_available := true
    readsPf := some 500
    pfClustersPercentPerLane := some (100 * (1/4 : Rat))
    perfectIndexReadPercent := some (100 * (99/100 : Rat))
    oneMismatchIndexReadPercent := some (100 * (1/100 : Rat))
    yieldPfGb := some ((((75000 : Int) : Rat) + ((0 : Int) : Rat)) / 1000000000)
    basesQ30Percent := some (100 * (((70000 : Int) : Rat) + ((0 : Int) : Rat)) /
      (((75000 : Int) : Rat) + ((0 : Int) : Rat)))
    averageQScore := some ((((2500000 : Int) : Rat) + ((0 : Int) : Rat)) /
      (((75000 : Int) : Rat) + ((0 : Int) : Rat))) }

theorem from_bclconvert_sampleB :
    SequencingFile.from_bclconvert (SampleSpec.record sampleB) = .ok seqFileB := by
  rfl

/-- Witness for C3 at the concrete single-end sample `sampleB`
(`Y1 = 75000`, `Q1 = 70000`, `S1 = 2500000`): the derived fields satisfy
the stated formulas, including the single-end `100*Q1/Y1` form. -/
theorem C3_witness :
    seqFileB.basesQ30Percent = some (100 *
        (((SampleSpec.record sampleB).quality_metrics_read1.yield_q30 : Rat) +
          ((SampleSpec.record sampleB).quality_metrics_read2.map
            (fun q => (q.yield_q30 : Rat))).getD 0) /
        (((SampleSpec.record sampleB).quality_metrics_read1.yield_ : Rat) +
          ((SampleSpec.record sampleB).quality_metrics_read2.map
            (fun q => (q.yield_ : Rat))).getD 0)) ∧
    seqFileB.yieldPfGb = some
        ((((SampleSpec.record sampleB).quality_metrics_read1.yield_ : Rat) +
          ((SampleSpec.record sampleB).quality_metrics_read2.map
            (fun q => (q.yield_ : Rat))).getD 0) / 1000000000) ∧
    seqFileB.averageQScore = some
        ((((SampleSpec.record sampleB).quality_metrics_read1.quality_score_sum : Rat) +
          ((SampleSpec.record sampleB).quality_metrics_read2.map
            (fun q => (q.quality_score_sum : Rat))).getD 0) /
        (((SampleSpec.record sampleB).quality_metrics_read1.yield_ : Rat) +
          ((SampleSpec.record sampleB).quality_metrics_read2.map
            (fun q => (q.yield_ : Rat))).getD 0)) ∧
    ((SampleSpec.record sampleB).quality_metrics_read2 = none →
      seqFileB.basesQ30Percent = some
        (100 * ((SampleSpec.record sampleB).quality_metrics_read1.yield_q30 : Rat) /
          ((SampleSpec.record sampleB).quality_metrics_read1.yield_ : Rat))) :=
  C3_derived_qc_formulas (SampleSpec.record sampleB) seqFileB from_bclconvert_sampleB

/-- A combined record whose read-1 yield is zero and which has no read-2
data, so the summed yield is zero. -/
def zeroYieldData : CombinedSampleData :=
  { fastq := sampleB.fe
    demux_stats := sampleB.dx
    quality_metrics_read1 :=
      { lane := 1
        sample_id := "Sample_2_99999999-8888-7777-6666-555555555555"
        index := "GGGGGGGG"
        index2 := "TTTTTTTT"
        read_number := 1
        yield_ := 0
        yield_q30 := 0
        quality_score_sum := 0
        mean_quality_score_pf := 0
        percent_q30 := 0 }
    quality_metrics_read2 := none }

/-- **C6** (amended): for every combined record whose summed read-1 and
read-2 yield is zero, `SequencingFile.from_bclconvert` never produces a
record: it raises an exception (an uncaught `ZeroDivisionError` when GUID
extraction succeeds, a `ValueError` otherwise) — there is no defined
null-result behaviour for the zero-yield case. -/
theorem C6_zero_yield_never_ok (d : CombinedSampleData)
    (hz : d.quality_metrics_read1.yield_ +
      (d.quality_metrics_read2.map (fun q => q.yield_)).getD 0 = 0) :
    (SequencingFile.from_bclconvert d).isOk = false := by
  unfold SequencingFile.from_bclconvert
  cases hg : extractUUID d.fastq.sample_id with
  | none => rfl
  | some guid =>
      cases hq2 : d.quality_metrics_read2 with
      | none =>
          rw [hq2] at hz
          dsimp only
          rw [if_pos (by simpa using hz)]
          rfl
      | some q =>
          rw [hq2] at hz
          dsimp only
          rw [if_pos (by simpa using hz)]
          rfl

/-- Counterexample to C6 as stated: at a concrete zero-yield record the
mapping raises `ZeroDivisionError` instead of producing a defined (e.g.
null) result. -/
theorem C6_counterexample :
    SequencingFile.from_bclconvert zeroYieldData =
      .error "ZeroDivisionError: division by zero" := by
  rfl

/-- Witness for C6 at the same concrete zero-yield record. -/
theorem C6_witness :
    (SequencingFile.from_bclconvert zeroYieldData).isOk = false :=
  C6_zero_yield_never_ok zeroYieldData (by decide)

/-- **C10**: every `SequencingFile` produced by `from_bclconvert` has
`all_files_available = true`, `fastq_path_I1 = none`,
`fastq_path_I2 = none` and `record_id = none`, and its `dataReadPasses`
computed field is 2 when the source fastq entry has a read-2 file and 1
otherwise. -/
theorem C10_fixed_fields_and_read_passes (d : CombinedSampleData)
    (f : SequencingFile) (h : SequencingFile.from_bclconvert d = .ok f) :
    f.all_files_available = true ∧ f.fastq_path_I1 = none ∧
    f.fastq_path_I2 = none ∧ f.record_id = none ∧
    f.dataReadPasses = some (if d.fastq.read2_file.isSome then 2 else 1) := by
  unfold SequencingFile.from_bclconvert at h
  cases hg : extractUUID d.fastq.sample_id with
  | none =>
      rw [hg] at h
      exact Except.noConfusion h
  | some guid =>
      rw [hg] at h
      cases hq2 : d.quality_metrics_read2 with
      | none =>
          rw [hq2] at h
          dsimp only at h
          split at h
          · exact Except.noConfusion h
          · injection h with h
            subst h
            refine ⟨rfl, rfl, rfl, rfl, ?_⟩
            unfold SequencingFile.dataReadPasses
            cases hr2 : d.fastq.read2_file <;> simp [hr2]
      | some q =>
          rw [hq2] at h
          dsimp only at h
          split at h
          · exact Except.noConfusion h
          · injection h with h
            subst h
            refine ⟨rfl, rfl, rfl, rfl, ?_⟩
            unfold SequencingFile.dataReadPasses
            cases hr2 : d.fastq.read2_file <;> simp [hr2]

/-- Witness for C10 at the concrete single-end sample `sampleB`:
`dataReadPasses` is 1 and the fixed fields have their mandated values. -/
theorem C10_witness :
    seqFileB.all_files_available = true ∧ seqFileB.fastq_path_I1 = none ∧
    seqFileB.fastq_path_I2 = none ∧ seqFileB.record_id = none ∧
    seqFileB.dataReadPasses =
      some (if (SampleSpec.record sampleB).fastq.read2_file.isSome then 2 else 1) :=
  C10_fixed_fields_and_read_passes (SampleSpec.record sampleB) seqFileB
    from_bclconvert_sampleB

/-! ## Glob matching (`fnmatch.fnmatch`; POSIX, hence case-sensitive) -/

/-- Membership of a character in a glob character-class body, with `a-b`
ranges and literal leading/trailing `-`, per `fnmatch` class semantics. -/
def charInClass (c : Char) : List Char → Bool
  | a :: '-' :: b :: rest => (a ≤ c && c ≤ b) || charInClass c rest
  | a :: rest => (c == a) || charInClass c rest
  | [] => false

/-- Split a character list at the first `]`, returning the class body and
the remainder after the `]`; `none` when no `]` occurs. -/
def findClassEnd : List Char → Option (List Char × List Char)
  | [] => none
  | ']' :: rest => some ([], rest)
  | c :: rest => (findClassEnd rest).map (fun p => (c :: p.1, p.2))

/-- Parse a glob character class after the opening `[`: a leading `!`
negates, a `]` in first position is literal, and the class must be closed
by a later `]` (otherwise the `[` itself is a literal character and the
result is `none`).  Returns (negated, class body, pattern remainder). -/
def parseClass (ps : List Char) : Option (Bool × List Char × List Char) :=
  match ps with
  | '!' :: ']' :: rest2 =>
      (findClassEnd rest2).map (fun p => (true, ']' :: p.1, p.2))
  | '!' :: rest => (findClassEnd rest).map (fun p => (true, p.1, p.2))
  | ']' :: rest2 =>
      (findClassEnd rest2).map (fun p => (false, ']' :: p.1, p.2))
  | _ => (findClassEnd ps).map (fun p => (false, p.1, p.2))

theorem findClassEnd_length :
    ∀ (l : List Char) (p : List Char × List Char),
      findClassEnd l = some p → p.2.length < l.length := by
  intro l
  induction l with
  | nil => intro p h; exact Option.noConfusion h
  | cons c rest ih =>
      intro p h
      by_cases hc : c = ']'
      · subst hc
        unfold findClassEnd at h
        injection h with h
        subst h
        simp
      · unfold findClassEnd at h
        rw [show (match c :: rest with
            | [] => none
            | ']' :: rest => some ([], rest)
            | c :: rest => (findClassEnd rest).map (fun p => (c :: p.1, p.2))) =
            (findClassEnd rest).map (fun p => (c :: p.1, p.2)) from by
          cases hc' : c <;> simp_all [findClassEnd]] at h
        cases hfe : findClassEnd rest with
        | none => rw [hfe] at h; exact Option.noConfusion h
        | some p' =>
            rw [hfe] at h
            injection h with h
            subst h
            exact Nat.lt_succ_of_lt (ih p' hfe)

theorem parseClass_length :
    ∀ (ps : List Char) (r : Bool × List Char × List Char),
      parseClass ps = some r → r.2.2.length < ps.length := by
  intro ps r h
  unfold parseClass at h
  split at h
  · cases hfe : findClassEnd _ with
    | none => rw [hfe] at h; exact Option.noConfusion h
    | some p =>
        rw [hfe] at h
        injection h with h
        subst h
        have := findClassEnd_length _ p hfe
        simp only [List.length_cons]
        omega
  · cases hfe : findClassEnd _ with
    | none => rw [hfe] at h; exact Option.noConfusion h
    | some p =>
        rw [hfe] at h
        injection h with h
        subst h
        have := findClassEnd_length _ p hfe
        simp only [List.length_cons]
        omega
  · cases hfe : findClassEnd _ with
    | none => rw [hfe] at h; exact Option.noConfusion h
    | some p =>
        rw [hfe] at h
        injection h with h
        subst h
        have := findClassEnd_length _ p hfe
        simp only [List.length_cons]
        omega
  · cases hfe : findClassEnd _ with
    | none => rw [hfe] at h; exact Option.noConfusion h
    | some p =>
        rw [hfe] at h
        injection h with h
        subst h
        exact findClassEnd_length _ p hfe

/-- Fuel-driven core of the glob matcher.  Every recursive call strictly
decreases `pattern.length + s.length` (for the class case because
`parseClass` consumes at least the closing `]`, see `parseClass_length`),
so with fuel `pattern.length + s.length + 1` the fuel is never exhausted
and the function computes the exact glob-match relation; the fuel only
makes the recursion structural. -/
def globMatchFuel : Nat → List Char → List Char → Bool
  | 0, _, _ => false
  | _ + 1, [], s => s.isEmpty
  | fuel + 1, '*' :: ps, s =>
      globMatchFuel fuel ps s ||
        (match s with
         | [] => false
         | _ :: s2 => globMatchFuel fuel ('*' :: ps) s2)
  | fuel + 1, '?' :: ps, s =>
      (match s with
       | [] => false
       | _ :: s2 => globMatchFuel fuel ps s2)
  | fuel + 1, '[' :: ps, s =>
      (match parseClass ps with
       | some r =>
           (match s with
            | [] => false
            | c :: s2 =>
                (if r.1 then !(charInClass c r.2.1) else charInClass c r.2.1) &&
                  globMatchFuel fuel r.2.2 s2)
       | none =>
           (match s with
            | [] => false
            | c :: s2 => (c == '[') && globMatchFuel fuel ps s2))
  | fuel + 1, p :: ps, s =>
      (match s with
       | [] => false
       | c :: s2 => (p == c) && globMatchFuel fuel ps s2)

/-- Shell-glob matching of a pattern against a string (both as character
lists): `*` matches any sequence, `?` any single character, `[...]` /
`[!...]` character classes, other characters literally — `fnmatch.fnmatch`
on a POSIX platform (where `normcase` is the identity, so matching is
case-sensitive). -/
def globMatch (p s : List Char) : Bool :=
  globMatchFuel (p.length + s.length + 1) p s

/-- `matches` from `find_folders.py`: whether the path string matches any
of the glob patterns. -/
def matchesAny (p : String) (patterns : List String) : Bool :=
  patterns.any (fun pat => globMatch pat.data p.data)

/-! ## Filesystem model and folder scanning (`find_folders.py`, `models.py`)

The filesystem is a symlink-free tree; directory entry names are the plain
names returned by `iterdir`, never `"."` or `".."`, so `Path.resolve` on a
scanned entry is the identity on its name chain and only normalizes the
`".."` segments written explicitly by the code (the `CopyComplete.txt`
marker check). -/

/-- A directory: named subdirectories and contained file names. -/
inductive FSTree where
  | node : List (String × FSTree) → List String → FSTree

/-- The subdirectories of a directory. -/
def FSTree.subdirs : FSTree → List (String × FSTree)
  | node ds _ => ds

/-- The file names directly contained in a directory. -/
def FSTree.fileNames : FSTree → List String
  | node _ fs => fs

/-- The subtree at a normalized path, when that path is a directory. -/
def FSTree.lookupDir : FSTree → FsPath → Option FSTree
  | t, [] => some t
  | t, s :: rest =>
      match t.subdirs.find? (fun e => e.1 == s) with
      | some e => e.2.lookupDir rest
      | none => none

/-- `Path.is_dir`. -/
def FSTree.isDir (t : FSTree) (p : FsPath) : Bool :=
  (t.lookupDir (normalizePath p)).isSome

/-- `Path.is_file` (the lookup resolves `".."` segments, as the OS does in
a symlink-free tree). -/
def FSTree.isFile (t : FSTree) (p : FsPath) : Bool :=
  match (normalizePath p).getLast? with
  | none => false
  | some name =>
      match t.lookupDir (normalizePath p).dropLast with
      | some d => d.fileNames.contains name
      | none => false

/-- Lexicographic code-point comparison of character lists (the ordering
Python uses on strings). -/
def strLE : List Char → List Char → Bool
  | [], _ => true
  | _ :: _, [] => false
  | c :: as, d :: bs =>
      if c < d then true else if d < c then false else strLE as bs

/-- Python's ordering of `PosixPath` values: by their string form. -/
def pathLE (a b : FsPath) : Bool := strLE (absStr a).data (absStr b).data

/-- Ordered insertion for `sortPaths`. -/
def insertSorted (x : FsPath) : List FsPath → List FsPath
  | [] => [x]
  | y :: t => if pathLE x y then x :: y :: t else y :: insertSorted x t

/-- `sorted(...)` on paths: a sort by the path's string form. -/
def sortPaths (l : List FsPath) : List FsPath := l.foldr insertSorted []

mutual
/-- The recursive call of `filter_folders` on a non-root directory (its own
inclusion was already decided by its parent's loop): scan the
sub-directories and return the matches, sorted. -/
def walkDir : FSTree → FsPath → FsPath → List String → List String → List FsPath
  | .node subs _, rel, base, inc, exc => sortPaths (walkKids subs rel base inc exc)

/-- The `for item in root_path.iterdir()` loop of `filter_folders`: skip
non-directories; prune a child matching an exclude pattern (no descent, no
record); record a child matching an include pattern (resolved); always
recurse into non-excluded children. -/
def walkKids :
    List (String × FSTree) → FsPath → FsPath → List String → List String →
      List FsPath
  | [], _, _, _, _ => []
  | (name, child) :: rest, rel, base, inc, exc =>
      (if matchesAny (relStr (rel ++ [name])) exc then []
       else
         (if matchesAny (relStr (rel ++ [name])) inc then [base ++ (rel ++ [name])]
          else []) ++
           walkDir child (rel ++ [name]) base inc exc) ++
        walkKids rest rel base inc exc
end

/-- `filter_folders`: a `None` or empty include-pattern list defaults to
`["*"]`, a `None` exclude-pattern list to `[]`; a missing or non-directory
root yields `[]` (logged warning); the root itself is matched against its
absolute path string and recorded resolved; each descendant is matched
against its path relative to the root; the accumulated list is returned
sorted. -/
def filter_folders (fs : FSTree) (root_path : FsPath)
    (include_patterns exclude_patterns : Option (List String)) : List FsPath :=
  let inc :=
    match include_patterns with
    | none => ["*"]
    | some [] => ["*"]
    | some l => l
  let exc := exclude_patterns.getD []
  match fs.lookupDir (normalizePath root_path) with
  | none => []
  | some t =>
      let rootEntry :=
        if matchesAny (absStr root_path) exc then []
        else if matchesAny (absStr root_path) inc then [normalizePath root_path]
        else []
      sortPaths (rootEntry ++ walkKids t.subdirs [] (normalizePath root_path) inc exc)

/-- `BCLConvertFolder` (a frozen pydantic model: hashable, compared by
field values, so equal folders deduplicate inside a `set`). -/
structure BCLConvertFolder where
  path : FsPath
  demultiplex_stats_paths : List FsPath
  quality_metrics_paths : List FsPath
  fastq_list_paths : List FsPath
deriving DecidableEq, Repr

/-- The historically valid candidate sub-paths for one report file name, in
the fixed priority order written in `BCLConvertFolder.from_path`. -/
def candidateSubpaths (path : FsPath) (name : String) : List FsPath :=
  [path ++ [name],
   path ++ ["Demux", name],
   path ++ ["DragenGermline", "fastq", "Reports", name],
   path ++ ["DragenGermline", "ora_fastq", "Reports", name],
   path ++ ["BCLConvert", "fastq", "Reports", name],
   path ++ ["BCLConvert", "ora_fastq", "Reports", name]]

/-- `BCLConvertFolder.from_path` with pydantic validation: keeps **every**
existing candidate for each report file, in priority order (resolved by the
`resolve_paths` validator); validation collects an error for a non-directory
`path` (`DirectoryPath`) and for each empty tuple (the `resolve_paths`
message names the field); the model is built only when no field errored. -/
def BCLConvertFolder.from_path (fs : FSTree) (path : FsPath) :
    Except (List String) BCLConvertFolder :=
  let ds := (candidateSubpaths path "Demultiplex_Stats.csv").filter fs.isFile
  let qs := (candidateSubpaths path "Quality_Metrics.csv").filter fs.isFile
  let fl := (candidateSubpaths path "fastq_list.csv").filter fs.isFile
  let errs :=
    (if fs.isDir path then [] else ["Path does not point to a directory"]) ++
    (if ds.isEmpty then ["Missing file for 'demultiplex_stats_paths"] else []) ++
    (if qs.isEmpty then ["Missing file for 'quality_metrics_paths"] else []) ++
    (if fl.isEmpty then ["Missing file for 'fastq_list_paths"] else [])
  if errs.isEmpty then
    .ok ⟨path, ds.map normalizePath, qs.map normalizePath, fl.map normalizePath⟩
  else .error errs

/-- The completion-marker check of `find_bclconvert_folders`: a
`CopyComplete.txt` two levels above the `BCLConvert` sub-folder, or a
`FastqComplete.txt` under `BCLConvert/fastq/Logs`. -/
def markerPresent (fs : FSTree) (folder : FsPath) : Bool :=
  fs.isFile (folder ++ ["BCLConvert", "..", "..", "CopyComplete.txt"]) ||
    fs.isFile (folder ++ ["BCLConvert", "fastq", "Logs", "FastqComplete.txt"])

/-- The body of the folder loop of `find_bclconvert_folders`: require a
`BCLConvert` sub-directory, then a completion marker (else silently skip),
then add the parsed folder to the set (`ValidationError` logged and
skipped; the duplicated `is_dir` test is in the source). -/
def addFolder (fs : FSTree) (acc : List BCLConvertFolder) (folder : FsPath) :
    List BCLConvertFolder :=
  if fs.isDir (folder ++ ["BCLConvert"]) then
    if markerPresent fs folder then
      if fs.isDir (folder ++ ["BCLConvert"]) then
        match BCLConvertFolder.from_path fs folder with
        | .ok b => if b ∈ acc then acc else acc ++ [b]
        | .error _ => acc
      else acc
    else acc
  else acc

/-- `find_bclconvert_folders`: the marker-gated scan over all root paths;
the Python `set` is modeled as its insertion-ordered, duplicate-free
underlying list. -/
def find_bclconvert_folders (fs : FSTree) (root_paths : List FsPath)
    (include_patterns exclude_patterns : Option (List String)) :
    List BCLConvertFolder :=
  root_paths.foldl
    (fun acc root =>
      (filter_folders fs root include_patterns exclude_patterns).foldl
        (addFolder fs) acc)
    []

theorem head?_filter_eq_find? {α : Type} (p : α → Bool) (l : List α) :
    (l.filter p).head? = l.find? p := by
  induction l with
  | nil => rfl
  | cons a t ih =>
      by_cases ha : p a <;> simp [List.filter_cons, List.find?_cons, ha, ih]

theorem from_path_ok_iff (fs : FSTree) (p : FsPath) (b : BCLConvertFolder) :
    BCLConvertFolder.from_path fs p = .ok b ↔
      (fs.isDir p = true ∧
       ((candidateSubpaths p "Demultiplex_Stats.csv").filter fs.isFile) ≠ [] ∧
       ((candidateSubpaths p "Quality_Metrics.csv").filter fs.isFile) ≠ [] ∧
       ((candidateSubpaths p "fastq_list.csv").filter fs.isFile) ≠ [] ∧
       b = ⟨p,
         ((candidateSubpaths p "Demultiplex_Stats.csv").filter fs.isFile).map
           normalizePath,
         ((candidateSubpaths p "Quality_Metrics.csv").filter fs.isFile).map
           normalizePath,
         ((candidateSubpaths p "fastq_list.csv").filter fs.isFile).map
           normalizePath⟩) := by
  unfold BCLConvertFolder.from_path
  constructor
  · intro hb
    dsimp only at hb
    by_cases hdir : fs.isDir p = true
    case neg =>
      rw [if_neg hdir] at hb
      rw [if_neg (by simp [List.isEmpty_iff, List.append_eq_nil])] at hb
      exact Except.noConfusion hb
    rw [if_pos hdir] at hb
    by_cases hds : List.filter fs.isFile
        (candidateSubpaths p "Demultiplex_Stats.csv") = []
    · rw [if_pos (List.isEmpty_iff.mpr hds)] at hb
      rw [if_neg (by simp [List.isEmpty_iff, List.append_eq_nil])] at hb
      exact Except.noConfusion hb
    rw [if_neg (fun hc => hds (List.isEmpty_iff.mp hc))] at hb
    by_cases hqs : List.filter fs.isFile
        (candidateSubpaths p "Quality_Metrics.csv") = []
    · rw [if_pos (List.isEmpty_iff.mpr hqs)] at hb
      rw [if_neg (by simp [List.isEmpty_iff, List.append_eq_nil])] at hb
      exact Except.noConfusion hb
    rw [if_neg (fun hc => hqs (List.isEmpty_iff.mp hc))] at hb
    by_cases hfl : List.filter fs.isFile
        (candidateSubpaths p "fastq_list.csv") = []
    · rw [if_pos (List.isEmpty_iff.mpr hfl)] at hb
      rw [if_neg (by simp [List.isEmpty_iff, List.append_eq_nil])] at hb
      exact Except.noConfusion hb
    rw [if_neg (fun hc => hfl (List.isEmpty_iff.mp hc))] at hb
    rw [if_pos (by rfl)] at hb
    injection hb with hb
    exact ⟨hdir, hds, hqs, hfl, hb.symm⟩
  · rintro ⟨hdir, hds, hqs, hfl, rfl⟩
    have hemp : ((((if fs.isDir p = true then ([] : List String)
        else ["Path does not point to a directory"]) ++
        (if (List.filter fs.isFile
            (candidateSubpaths p "Demultiplex_Stats.csv")).isEmpty = true then
          ["Missing file for 'demultiplex_stats_paths"] else [])) ++
        (if (List.filter fs.isFile
            (candidateSubpaths p "Quality_Metrics.csv")).isEmpty = true then
          ["Missing file for 'quality_metrics_paths"] else [])) ++
        (if (List.filter fs.isFile
            (candidateSubpaths p "fastq_list.csv")).isEmpty = true then
          ["Missing file for 'fastq_list_paths"] else [])).isEmpty = true := by
      rw [List.isEmpty_iff, List.append_eq_nil, List.append_eq_nil,
        List.append_eq_nil]
      refine ⟨⟨⟨?_, ?_⟩, ?_⟩, ?_⟩
      · rw [if_pos hdir]
      · rw [if_neg (fun hcontra => hds (List.isEmpty_iff.mp hcontra))]
      · rw [if_neg (fun hcontra => hqs (List.isEmpty_iff.mp hcontra))]
      · rw [if_neg (fun hcontra => hfl (List.isEmpty_iff.mp hcontra))]
    dsimp only
    rw [if_pos hemp]

theorem from_path_error_mem_ds (fs : FSTree) (p : FsPath)
    (h : (candidateSubpaths p "Demultiplex_Stats.csv").filter fs.isFile = []) :
    ∃ errs, BCLConvertFolder.from_path fs p = .error errs ∧
      "Missing file for 'demultiplex_stats_paths" ∈ errs := by
  unfold BCLConvertFolder.from_path
  dsimp only
  rw [if_pos (List.isEmpty_iff.mpr h)]
  rw [if_neg (by simp [List.isEmpty_iff, List.append_eq_nil])]
  exact ⟨_, rfl, by simp⟩

theorem from_path_error_mem_qs (fs : FSTree) (p : FsPath)
    (h : (candidateSubpaths p "Quality_Metrics.csv").filter fs.isFile = []) :
    ∃ errs, BCLConvertFolder.from_path fs p = .error errs ∧
      "Missing file for 'quality_metrics_paths" ∈ errs := by
  unfold BCLConvertFolder.from_path
  dsimp only
  rw [if_pos (List.isEmpty_iff.mpr h)]
  rw [if_neg (by simp [List.isEmpty_iff, List.append_eq_nil])]
  exact ⟨_, rfl, by simp⟩

theorem from_path_error_mem_fl (fs : FSTree) (p : FsPath)
    (h : (candidateSubpaths p "fastq_list.csv").filter fs.isFile = []) :
    ∃ errs, BCLConvertFolder.from_path fs p = .error errs ∧
      "Missing file for 'fastq_list_paths" ∈ errs := by
  unfold BCLConvertFolder.from_path
  dsimp only
  rw [if_pos (List.isEmpty_iff.mpr h)]
  rw [if_neg (by simp [List.isEmpty_iff, List.append_eq_nil])]
  exact ⟨_, rfl, by simp⟩

/-- **C4** (amended): for every candidate folder, the locator enumerates
the fixed priority-ordered candidate sub-paths of each of the three report
files and keeps **every** candidate that exists, in priority order — so the
first existing candidate is the head of the resolved tuple, but later
existing candidates are kept (and parsed) as well, not discarded; when no
candidate sub-path exists for a required file, `BCLConvertFolder`
construction fails with a `ValidationError` whose message names the missing
file category. -/
theorem C4_locator_keeps_all_existing (fs : FSTree) (p : FsPath) :
    (∀ b, BCLConvertFolder.from_path fs p = .ok b →
      b.path = p ∧
      b.demultiplex_stats_paths =
        ((candidateSubpaths p "Demultiplex_Stats.csv").filter fs.isFile).map
          normalizePath ∧
      b.quality_metrics_paths =
        ((candidateSubpaths p "Quality_Metrics.csv").filter fs.isFile).map
          normalizePath ∧
      b.fastq_list_paths =
        ((candidateSubpaths p "fastq_list.csv").filter fs.isFile).map
          normalizePath ∧
      b.demultiplex_stats_paths.head? =
        ((candidateSubpaths p "Demultiplex_Stats.csv").find? fs.isFile).map
          normalizePath ∧
      b.quality_metrics_paths.head? =
        ((candidateSubpaths p "Quality_Metrics.csv").find? fs.isFile).map
          normalizePath ∧
      b.fastq_list_paths.head? =
        ((candidateSubpaths p "fastq_list.csv").find? fs.isFile).map
          normalizePath ∧
      b.demultiplex_stats_paths ≠ [] ∧ b.quality_metrics_paths ≠ [] ∧
      b.fastq_list_paths ≠ []) ∧
    ((candidateSubpaths p "Demultiplex_Stats.csv").filter fs.isFile = [] →
      ∃ errs, BCLConvertFolder.from_path fs p = .error errs ∧
        "Missing file for 'demultiplex_stats_paths" ∈ errs) ∧
    ((candidateSubpaths p "Quality_Metrics.csv").filter fs.isFile = [] →
      ∃ errs, BCLConvertFolder.from_path fs p = .error errs ∧
        "Missing file for 'quality_metrics_paths" ∈ errs) ∧
    ((candidateSubpaths p "fastq_list.csv").filter fs.isFile = [] →
      ∃ errs, BCLConvertFolder.from_path fs p = .error errs ∧
        "Missing file for 'fastq_list_paths" ∈ errs) := by
  refine ⟨?_, from_path_error_mem_ds fs p, from_path_error_mem_qs fs p,
    from_path_error_mem_fl fs p⟩
  intro b hb
  obtain ⟨-, hds, hqs, hfl, rfl⟩ := (from_path_ok_iff fs p b).mp hb
  refine ⟨rfl, rfl, rfl, rfl, ?_, ?_, ?_, ?_, ?_, ?_⟩
  · show (List.map normalizePath _).head? = _
    rw [List.head?_map, head?_filter_eq_find?]
  · show (List.map normalizePath _).head? = _
    rw [List.head?_map, head?_filter_eq_find?]
  · show (List.map normalizePath _).head? = _
    rw [List.head?_map, head?_filter_eq_find?]
  · exact fun hc => hds (List.map_eq_nil_iff.mp hc)
  · exact fun hc => hqs (List.map_eq_nil_iff.mp hc)
  · exact fun hc => hfl (List.map_eq_nil_iff.mp hc)

/-- A filesystem in which `work/runX` holds `Demultiplex_Stats.csv` both at
the top level and under `Demux/` (two historically valid locations at
once), `Quality_Metrics.csv` under `Demux/` and `fastq_list.csv` at the top
level. -/
def fsC4 : FSTree :=
  .node
    [("work", .node
      [("runX", .node
        [("Demux", .node [] ["Demultiplex_Stats.csv", "Quality_Metrics.csv"])]
        ["Demultiplex_Stats.csv", "fastq_list.csv"])]
      [])]
    []

/-- Counterexample to C4 as stated: with two existing candidate locations
for `Demultiplex_Stats.csv`, the locator does not select only the first one
that exists — the constructed folder's resolved tuple keeps both (and
`parse_bclconvert_folder` iterates over all of them). -/
theorem C4_counterexample :
    BCLConvertFolder.from_path fsC4 ["work", "runX"] =
      .ok ⟨["work", "runX"],
        [["work", "runX", "Demultiplex_Stats.csv"],
         ["work", "runX", "Demux", "Demultiplex_Stats.csv"]],
        [["work", "runX", "Demux", "Quality_Metrics.csv"]],
        [["work", "runX", "fastq_list.csv"]]⟩ ∧
    (BCLConvertFolder.from_path fsC4 ["work", "runX"]).toOption.map
      (fun b => b.demultiplex_stats_paths.length) = some 2 := by
  constructor
  · rfl
  · rfl

/-- Witness for C4 at a concrete folder (`work/runX/Demux`) with no
candidate location for `fastq_list.csv`: construction fails and the error
names the missing file category. -/
theorem C4_witness :
    ∃ errs, BCLConvertFolder.from_path fsC4 ["work", "runX", "Demux"] =
      .error errs ∧ "Missing file for 'fastq_list_paths" ∈ errs :=
  (C4_locator_keeps_all_existing fsC4 ["work", "runX", "Demux"]).2.2.2 (by rfl)

/-! ## Properties of the recursive folder scan -/

theorem mem_insertSorted (x a : FsPath) (l : List FsPath) :
    a ∈ insertSorted x l ↔ a = x ∨ a ∈ l := by
  induction l with
  | nil => simp [insertSorted]
  | cons y t ih =>
      unfold insertSorted
      by_cases hle : pathLE x y
      · simp [hle]
      · rw [if_neg (by simp [hle])]
        rw [List.mem_cons, List.mem_cons, ih]
        tauto

theorem mem_sortPaths (a : FsPath) (l : List FsPath) :
    a ∈ sortPaths l ↔ a ∈ l := by
  unfold sortPaths
  induction l with
  | nil => simp
  | cons y t ih =>
      simp only [List.foldr_cons, mem_insertSorted, List.mem_cons, ih]

theorem globMatchFuel_star (fuel : Nat) (s : List Char)
    (h : s.length + 1 < fuel) : globMatchFuel fuel ['*'] s = true := by
  induction fuel generalizing s with
  | zero => omega
  | succ fuel ih =>
      cases s with
      | nil =>
          match fuel, h with
          | f2 + 1, _ => rfl
      | cons c s2 =>
          show (globMatchFuel fuel [] (c :: s2) ||
            globMatchFuel fuel ('*' :: ([] : List Char)) s2) = true
          rw [ih s2 (by simpa using h)]
          simp

theorem globMatch_star (s : List Char) : globMatch ['*'] s = true := by
  unfold globMatch
  exact globMatchFuel_star _ s (by simp)

theorem matchesAny_star (s : String) : matchesAny s ["*"] = true := by
  unfold matchesAny
  simp only [List.any_cons, List.any_nil, Bool.or_false]
  exact globMatch_star s.data

theorem matchesAny_nil (s : String) : matchesAny s [] = false := rfl

theorem walkKids_nil_eq (rel base : FsPath) (inc exc : List String) :
    walkKids [] rel base inc exc = [] := rfl

theorem walkKids_cons_eq (name : String) (child : FSTree)
    (rest : List (String × FSTree)) (rel base : FsPath) (inc exc : List String) :
    walkKids ((name, child) :: rest) rel base inc exc =
      (if matchesAny (relStr (rel ++ [name])) exc then []
       else
         (if matchesAny (relStr (rel ++ [name])) inc then [base ++ (rel ++ [name])]
          else []) ++
           walkDir child (rel ++ [name]) base inc exc) ++
        walkKids rest rel base inc exc := rfl

theorem walkDir_eq (subs : List (String × FSTree)) (files : List String)
    (rel base : FsPath) (inc exc : List String) :
    walkDir (.node subs files) rel base inc exc =
      sortPaths (walkKids subs rel base inc exc) := rfl

/-- Every path produced by the scan loop below relative position `rel` is
`base` plus a strictly longer directory chain extending `rel`, none of
whose intermediate chains (strictly beyond `rel`) matches an exclude
pattern: an excluded directory's subtree is pruned entirely. -/
theorem walkKids_sound (n : Nat) :
    ∀ (cs : List (String × FSTree)), sizeOf cs ≤ n →
    ∀ (rel base : FsPath) (inc exc : List String) (q : FsPath),
      q ∈ walkKids cs rel base inc exc →
      ∃ ch : FsPath, q = base ++ ch ∧ ch.take rel.length = rel ∧
        rel.length < ch.length ∧
        ∀ i, rel.length < i → i ≤ ch.length →
          matchesAny (relStr (ch.take i)) exc = false := by
  induction n with
  | zero =>
      intro cs hcs
      exact absurd hcs (by cases cs <;> simp)
  | succ n ih =>
      intro cs hcs rel base inc exc q hq
      match cs, hcs with
      | [], _ =>
          rw [walkKids_nil_eq] at hq
          cases hq
      | (name, child) :: rest, hcs =>
          rw [walkKids_cons_eq, List.mem_append] at hq
          rcases hq with hq | hq
          · by_cases hexc : matchesAny (relStr (rel ++ [name])) exc = true
            · rw [if_pos hexc] at hq
              cases hq
            · have hexc' : matchesAny (relStr (rel ++ [name])) exc = false := by
                simpa using hexc
              rw [if_neg hexc, List.mem_append] at hq
              rcases hq with hq | hq
              · have hq' : q = base ++ (rel ++ [name]) := by
                  by_cases hinc : matchesAny (relStr (rel ++ [name])) inc = true
                  · rw [if_pos hinc, List.mem_singleton] at hq
                    exact hq
                  · rw [if_neg hinc] at hq
                    cases hq
                refine ⟨rel ++ [name], hq', List.take_left rel [name], by simp,
                  ?_⟩
                intro i h1 h2
                rw [List.length_append, List.length_singleton] at h2
                have hi : i = (rel ++ [name]).length := by
                  rw [List.length_append, List.length_singleton]
                  omega
                rw [hi, List.take_length]
                exact hexc'
              · obtain ⟨subs, files⟩ := child
                rw [walkDir_eq, mem_sortPaths] at hq
                have hsz : sizeOf subs ≤ n := by
                  have h1 := hcs
                  simp only [List.cons.sizeOf_spec, Prod.mk.sizeOf_spec,
                    FSTree.node.sizeOf_spec] at h1
                  omega
                obtain ⟨ch, hch, htake, hlen, hOK⟩ :=
                  ih subs hsz (rel ++ [name]) base inc exc q hq
                rw [List.length_append, List.length_singleton] at hlen
                have htake' : ch.take (rel.length + 1) = rel ++ [name] := by
                  rw [← htake, List.length_append, List.length_singleton]
                refine ⟨ch, hch, ?_, by omega, ?_⟩
                · have : (ch.take (rel.length + 1)).take rel.length = rel := by
                    rw [htake', List.take_left]
                  rw [List.take_take] at this
                  simpa [Nat.min_def] using this
                · intro i hi1 hi2
                  by_cases hi : i ≤ rel.length + 1
                  · have : i = rel.length + 1 := by omega
                    subst this
                    rw [htake']
                    exact hexc'
                  · refine hOK i ?_ hi2
                    rw [List.length_append, List.length_singleton]
                    omega
          · refine ih rest ?_ rel base inc exc q hq
            have h1 := hcs
            simp only [List.cons.sizeOf_spec, Prod.mk.sizeOf_spec] at h1
            omega

theorem walkKids_mem_entry (cs : List (String × FSTree)) (name : String)
    (child : FSTree) (hmem : (name, child) ∈ cs) (rel base : FsPath)
    (inc exc : List String) (q : FsPath)
    (hq : q ∈
      (if matchesAny (relStr (rel ++ [name])) exc then []
       else
         (if matchesAny (relStr (rel ++ [name])) inc then [base ++ (rel ++ [name])]
          else []) ++
           walkDir child (rel ++ [name]) base inc exc)) :
    q ∈ walkKids cs rel base inc exc := by
  induction cs with
  | nil => cases hmem
  | cons e rest ih =>
      rw [List.mem_cons] at hmem
      rcases hmem with rfl | hmem
      · rw [walkKids_cons_eq, List.mem_append]
        exact Or.inl hq
      · obtain ⟨n2, c2⟩ := e
        rw [walkKids_cons_eq, List.mem_append]
        exact Or.inr (ih hmem)

/-- With the defaulted patterns of an empty include list (`["*"]`, matching
everything) and an empty exclude list (matching nothing), the scan loop
reaches every directory chain of the tree. -/
theorem walkDir_complete (rel' : FsPath) :
    ∀ (t : FSTree) (rel base : FsPath), rel' ≠ [] →
      (t.lookupDir rel').isSome = true →
      base ++ (rel ++ rel') ∈ walkKids t.subdirs rel base ["*"] [] := by
  induction rel' with
  | nil =>
      intro t rel base h
      exact absurd rfl h
  | cons name rest ih =>
      intro t rel base hne hlook
      unfold FSTree.lookupDir at hlook
      cases hf : t.subdirs.find? (fun e => e.1 == name) with
      | none =>
          rw [hf] at hlook
          simp at hlook
      | some e =>
          obtain ⟨en, ec⟩ := e
          rw [hf] at hlook
          dsimp only at hlook
          have hname : en = name := by simpa using List.find?_some hf
          have hmem : (name, ec) ∈ t.subdirs := by
            rw [← hname]
            exact List.mem_of_find?_eq_some hf
      
          by_cases hrest : rest = []
          · subst hrest
            apply walkKids_mem_entry t.subdirs name ec hmem
            rw [if_neg (by rw [matchesAny_nil]; simp)]
            rw [List.mem_append]
            left
            rw [if_pos (matchesAny_star _)]
            simp
          · apply walkKids_mem_entry t.subdirs name ec hmem
            rw [if_neg (by rw [matchesAny_nil]; simp)]
            rw [List.mem_append]
            right
            cases ec with
            | node subs files =>
                rw [walkDir_eq, mem_sortPaths]
                have hgoal := ih (.node subs files) (rel ++ [name]) base hrest hlook
                have heq : rel ++ name :: rest = (rel ++ [name]) ++ rest := by
                  simp
                rw [heq]
                exact hgoal

/-- **C9**: every directory strictly below a scan root whose path relative
to the root matches an exclude pattern is pruned with its entire subtree —
neither it nor any descendant ever appears in the result of
`filter_folders`, whatever the include patterns say; and with an empty (or
absent) include-pattern list and an empty (or absent) exclude-pattern list,
every directory below the root appears in the result (empty include
matches every directory, empty exclude matches none). -/
theorem C9_exclude_prunes_subtree (fs : FSTree) (root : FsPath)
    (include_patterns exclude_patterns : Option (List String)) :
    (∀ rel rest : FsPath, rel ≠ [] →
      matchesAny (relStr rel) (exclude_patterns.getD []) = true →
      (normalizePath root ++ (rel ++ rest)) ∉
        filter_folders fs root include_patterns exclude_patterns) ∧
    (∀ rel' : FsPath, rel' ≠ [] →
      ∀ t, fs.lookupDir (normalizePath root) = some t →
        (t.lookupDir rel').isSome = true →
        normalizePath root ++ rel' ∈ filter_folders fs root (some []) (some [])) := by
  constructor
  · intro rel rest hne hexc hmem
    unfold filter_folders at hmem
    cases hl : fs.lookupDir (normalizePath root) with
    | none =>
        rw [hl] at hmem
        cases hmem
    | some t =>
        rw [hl] at hmem
        dsimp only at hmem
        rw [mem_sortPaths, List.mem_append] at hmem
        rcases hmem with hmem | hmem
        · split at hmem
          · cases hmem
          · split at hmem
            · rw [List.mem_singleton] at hmem
              have h0 : normalizePath root ++ (rel ++ rest) =
                  normalizePath root ++ [] := by simpa using hmem
              rcases List.append_eq_nil.mp (List.append_cancel_left h0) with
                ⟨rfl, -⟩
              exact hne rfl
            · cases hmem
        · obtain ⟨ch, hch, -, -, hOK⟩ :=
            walkKids_sound (sizeOf t.subdirs) t.subdirs le_rfl [] (normalizePath root)
              _ _ _ hmem
          have hch' : rel ++ rest = ch := List.append_cancel_left hch
          have hfalse := hOK rel.length
            (by simpa using List.length_pos.mpr hne)
            (by rw [← hch', List.length_append]; omega)
          rw [← hch', List.take_left] at hfalse
          rw [hexc] at hfalse
          exact Bool.noConfusion hfalse
  · intro rel' hne t hl hlook
    unfold filter_folders
    rw [hl]
    dsimp only
    rw [mem_sortPaths, List.mem_append]
    right
    exact walkDir_complete rel' t [] (normalizePath root) hne hlook

/-- A two-run scan filesystem: `data/run1` is a completed run (it has a
`BCLConvert` sub-folder, a `FastqComplete.txt` marker and the three report
files), its sibling `data/run2` has the same reports but no completion
marker, and `data/skipme/run3` sits below a directory meant to be
excluded. -/
def fsScan : FSTree :=
  .node
    [("data", .node
      [("run1", .node
        [("BCLConvert", .node
          [("fastq", .node
            [("Logs", .node [] ["FastqComplete.txt"]),
             ("Reports", .node []
               ["Demultiplex_Stats.csv", "Quality_Metrics.csv", "fastq_list.csv"])]
            [])]
          [])]
        []),
       ("run2", .node
        [("BCLConvert", .node
          [("fastq", .node
            [("Reports", .node []
               ["Demultiplex_Stats.csv", "Quality_Metrics.csv", "fastq_list.csv"])]
            [])]
          [])]
        []),
       ("skipme", .node [("run3", .node [] [])] [])]
      [])]
    []

/-- Witness for C9: with exclude pattern `"skipme"`, the directory
`data/skipme/run3` below the excluded `data/skipme` never appears in the
scan of root `data`, even though the default include pattern would match
it. -/
theorem C9_witness :
    (["data", "skipme", "run3"] : FsPath) ∉
      filter_folders fsScan ["data"] none (some ["skipme"]) :=
  (C9_exclude_prunes_subtree fsScan ["data"] none (some ["skipme"])).1
    ["skipme"] ["run3"] (by decide) (by decide)

theorem from_path_ok_path (fs : FSTree) (p : FsPath) (b : BCLConvertFolder)
    (h : BCLConvertFolder.from_path fs p = .ok b) : b.path = p := by
  obtain ⟨-, -, -, -, rfl⟩ := (from_path_ok_iff fs p b).mp h
  rfl

theorem mem_addFolder_iff (fs : FSTree) (acc : List BCLConvertFolder)
    (folder : FsPath) (b : BCLConvertFolder) :
    b ∈ addFolder fs acc folder ↔
      b ∈ acc ∨ (fs.isDir (folder ++ ["BCLConvert"]) = true ∧
        markerPresent fs folder = true ∧
        BCLConvertFolder.from_path fs folder = .ok b) := by
  unfold addFolder
  by_cases h1 : fs.isDir (folder ++ ["BCLConvert"]) = true
  · rw [if_pos h1]
    by_cases h2 : markerPresent fs folder = true
    · rw [if_pos h2]
      cases hfp : BCLConvertFolder.from_path fs folder with
      | ok b' =>
          dsimp only
          rw [if_pos h1]
          by_cases hb : b' ∈ acc
          · rw [if_pos hb]
            constructor
            · exact Or.inl
            · rintro (h | ⟨-, -, h3⟩)
              · exact h
              · injection h3 with h3
                exact h3 ▸ hb
          · rw [if_neg hb, List.mem_append, List.mem_singleton]
            constructor
            · rintro (h | rfl)
              · exact Or.inl h
              · exact Or.inr ⟨h1, h2, rfl⟩
            · rintro (h | ⟨-, -, h3⟩)
              · exact Or.inl h
              · injection h3 with h3
                exact Or.inr h3.symm
      | error e =>
          dsimp only
          rw [if_pos h1]
          constructor
          · exact Or.inl
          · rintro (h | ⟨-, -, h3⟩)
            · exact h
            · exact Except.noConfusion h3
    · rw [if_neg h2]
      constructor
      · exact Or.inl
      · rintro (h | ⟨-, h2', -⟩)
        · exact h
        · exact absurd h2' h2
  · rw [if_neg h1]
    constructor
    · exact Or.inl
    · rintro (h | ⟨h1', -, -⟩)
      · exact h
      · exact absurd h1' h1

theorem nodup_addFolder (fs : FSTree) (acc : List BCLConvertFolder)
    (folder : FsPath) (h : acc.Nodup) : (addFolder fs acc folder).Nodup := by
  unfold addFolder
  by_cases h1 : fs.isDir (folder ++ ["BCLConvert"]) = true
  · rw [if_pos h1]
    by_cases h2 : markerPresent fs folder = true
    · rw [if_pos h2]
      cases hfp : BCLConvertFolder.from_path fs folder with
      | ok b' =>
          dsimp only
          rw [if_pos h1]
          by_cases hb : b' ∈ acc
          · rw [if_pos hb]
            exact h
          · rw [if_neg hb]
            simp [List.nodup_append, h, hb]
      | error e =>
          dsimp only
          rw [if_pos h1]
          exact h
    · rw [if_neg h2]
      exact h
  · rw [if_neg h1]
    exact h

theorem mem_foldl_addFolder (fs : FSTree) (l : List FsPath)
    (acc : List BCLConvertFolder) (b : BCLConvertFolder) :
    b ∈ l.foldl (addFolder fs) acc ↔
      b ∈ acc ∨ ∃ f ∈ l, fs.isDir (f ++ ["BCLConvert"]) = true ∧
        markerPresent fs f = true ∧
        BCLConvertFolder.from_path fs f = .ok b := by
  induction l generalizing acc with
  | nil => simp
  | cons f rest ih =>
      rw [List.foldl_cons, ih, mem_addFolder_iff]
      constructor
      · rintro ((h | hP) | ⟨f', hf', hP'⟩)
        · exact Or.inl h
        · exact Or.inr ⟨f, List.mem_cons_self _ _, hP⟩
        · exact Or.inr ⟨f', List.mem_cons_of_mem _ hf', hP'⟩
      · rintro (h | ⟨f', hf', hP'⟩)
        · exact Or.inl (Or.inl h)
        · rw [List.mem_cons] at hf'
          rcases hf' with rfl | hf'
          · exact Or.inl (Or.inr hP')
          · exact Or.inr ⟨f', hf', hP'⟩

theorem nodup_foldl_addFolder (fs : FSTree) (l : List FsPath)
    (acc : List BCLConvertFolder) (h : acc.Nodup) :
    (l.foldl (addFolder fs) acc).Nodup := by
  induction l generalizing acc with
  | nil => exact h
  | cons f rest ih => exact ih _ (nodup_addFolder fs acc f h)

theorem mem_find_bclconvert_iff (fs : FSTree) (roots : List FsPath)
    (inc exc : Option (List String)) (b : BCLConvertFolder) :
    b ∈ find_bclconvert_folders fs roots inc exc ↔
      ∃ root ∈ roots, ∃ f ∈ filter_folders fs root inc exc,
        fs.isDir (f ++ ["BCLConvert"]) = true ∧ markerPresent fs f = true ∧
        BCLConvertFolder.from_path fs f = .ok b := by
  unfold find_bclconvert_folders
  have haux : ∀ (rs : List FsPath) (acc : List BCLConvertFolder),
      b ∈ rs.foldl (fun acc root =>
        (filter_folders fs root inc exc).foldl (addFolder fs) acc) acc ↔
        b ∈ acc ∨ ∃ root ∈ rs, ∃ f ∈ filter_folders fs root inc exc,
          fs.isDir (f ++ ["BCLConvert"]) = true ∧ markerPresent fs f = true ∧
          BCLConvertFolder.from_path fs f = .ok b := by
    intro rs
    induction rs with
    | nil => simp
    | cons r rest ih =>
        intro acc
        rw [List.foldl_cons, ih, mem_foldl_addFolder]
        constructor
        · rintro ((h | ⟨f, hf, hP⟩) | ⟨r', hr', rest'⟩)
          · exact Or.inl h
          · exact Or.inr ⟨r, List.mem_cons_self _ _, f, hf, hP⟩
          · exact Or.inr ⟨r', List.mem_cons_of_mem _ hr', rest'⟩
        · rintro (h | ⟨r', hr', rest'⟩)
          · exact Or.inl (Or.inl h)
          · rw [List.mem_cons] at hr'
            rcases hr' with rfl | hr'
            · exact Or.inl (Or.inr rest')
            · exact Or.inr ⟨r', hr', rest'⟩
  rw [haux roots []]
  simp

theorem nodup_find_bclconvert (fs : FSTree) (roots : List FsPath)
    (inc exc : Option (List String)) :
    (find_bclconvert_folders fs roots inc exc).Nodup := by
  unfold find_bclconvert_folders
  have haux : ∀ (rs : List FsPath) (acc : List BCLConvertFolder), acc.Nodup →
      (rs.foldl (fun acc root =>
        (filter_folders fs root inc exc).foldl (addFolder fs) acc) acc).Nodup := by
    intro rs
    induction rs with
    | nil => exact fun acc h => h
    | cons r rest ih =>
        intro acc hacc
        rw [List.foldl_cons]
        exact ih _ (nodup_foldl_addFolder fs _ acc hacc)
  exact haux roots [] List.nodup_nil

/-- **C8**: a candidate folder reached by the glob-filtered scan and
containing a `BCLConvert` sub-folder is included in
`find_bclconvert_folders` output only when a completion marker is present
(`CopyComplete.txt` two levels above the `BCLConvert` sub-folder, or
`FastqComplete.txt` under `BCLConvert/fastq/Logs`); a folder without a
marker is silently excluded (the scan is total and no record with that path
appears); and a marker-bearing folder whose report files resolve appears
exactly once in the output set, even when two distinct root paths both
reach the same resolved folder. -/
theorem C8_marker_gated_dedup (fs : FSTree) (roots : List FsPath)
    (inc exc : Option (List String)) :
    (find_bclconvert_folders fs roots inc exc).Nodup ∧
    (∀ b ∈ find_bclconvert_folders fs roots inc exc,
      fs.isDir (b.path ++ ["BCLConvert"]) = true ∧
      markerPresent fs b.path = true ∧
      ∃ root ∈ roots, b.path ∈ filter_folders fs root inc exc) ∧
    (∀ root ∈ roots, ∀ folder ∈ filter_folders fs root inc exc,
      fs.isDir (folder ++ ["BCLConvert"]) = true →
      markerPresent fs folder = true →
      ∀ b, BCLConvertFolder.from_path fs folder = .ok b →
        (find_bclconvert_folders fs roots inc exc).count b = 1) ∧
    (∀ folder : FsPath, markerPresent fs folder = false →
      ∀ b ∈ find_bclconvert_folders fs roots inc exc, b.path ≠ folder) := by
  have hmem := mem_find_bclconvert_iff fs roots inc exc
  have hnd := nodup_find_bclconvert fs roots inc exc
  refine ⟨hnd, ?_, ?_, ?_⟩
  · intro b hb
    obtain ⟨root, hroot, f, hf, hdir, hmark, hok⟩ := (hmem b).mp hb
    rw [from_path_ok_path fs f b hok]
    exact ⟨hdir, hmark, root, hroot, hf⟩
  · intro root hroot folder hfolder hdir hmark b hok
    exact List.count_eq_one_of_mem hnd
      ((hmem b).mpr ⟨root, hroot, folder, hfolder, hdir, hmark, hok⟩)
  · intro folder hmark b hb heq
    obtain ⟨root, hroot, f, hf, hdir, hmark', hok⟩ := (hmem b).mp hb
    rw [from_path_ok_path fs f b hok] at heq
    subst heq
    rw [hmark'] at hmark
    exact Bool.noConfusion hmark

/-- The single folder discovered in `fsScan`. -/
def bScan : BCLConvertFolder :=
  ⟨["data", "run1"],
   [["data", "run1", "BCLConvert", "fastq", "Reports", "Demultiplex_Stats.csv"]],
   [["data", "run1", "BCLConvert", "fastq", "Reports", "Quality_Metrics.csv"]],
   [["data", "run1", "BCLConvert", "fastq", "Reports", "fastq_list.csv"]]⟩

/-- Witness for C8: scanning `fsScan` from the two overlapping roots
`data` and `data/run1` (both of which reach the completed run
`data/run1`), the discovered folder appears exactly once in the output. -/
theorem C8_witness :
    (find_bclconvert_folders fsScan [["data"], ["data", "run1"]] none none).count
      bScan = 1 :=
  (C8_marker_gated_dedup fsScan [["data"], ["data", "run1"]] none none).2.2.1
    ["data"] (by decide) ["data", "run1"] (by decide) (by decide) (by decide)
    bScan (by rfl)
